import Mathlib

/-! Solusi Emas: price feed retry chain and pricing calculator.

A shallow embedding of `src/script.js` (functions `fetchPrice`, `updatePriceUI`,
`handleCalcSubmit`, `showCalcResult`) together with the properties stated for them.

Numbers.  A JavaScript number is modelled by `JSNum`: a rational (the exact value of a
finite binary64 number), `+Infinity`, `-Infinity` or `NaN`.  Every arithmetic operation,
every number literal that is not exactly representable and every conversion from a string
rounds its exact result with `binary64`: to nearest, ties to even, with gradual underflow
and overflow to an infinity.  The sign of zero is not tracked.

Asynchrony.  One call of the async function `fetchPrice` is a function from the outcome
of its network read and the page state to its completion and the new page state.  Timers
created by `setTimeout` are kept in the page state and fired by `eventLoop`.

Page.  The form fields and the container `#calc-result` are taken to exist (the handler is
attached only when the form does); the element `#gold-price` may be absent.  The call
`e.preventDefault()` has no effect on the modelled state.  The fetched record is read only
through its field `pricePerGram`, taken to be a number or missing.
-/

namespace SolusiEmas

/-! ## JavaScript numbers -/

/-- A JavaScript number: a finite value (given by its exact rational value), an infinity,
or NaN. -/
inductive JSNum where
  | fin (q : ℚ)
  | posInf
  | negInf
  | nan
  deriving DecidableEq

/-- Nearest integer, ties to the even one. -/
def roundHalfEven (x : ℚ) : ℤ :=
  if x - ⌊x⌋ < 1 / 2 then ⌊x⌋
  else if 1 / 2 < x - ⌊x⌋ then ⌊x⌋ + 1
  else if ⌊x⌋ % 2 = 0 then ⌊x⌋ else ⌊x⌋ + 1

/-- Spacing of the binary64 values around a positive `q`: 52 fraction bits below the leading
bit, and the subnormal spacing `2^-1074` below `2^-1022`. -/
def ulp (q : ℚ) : ℚ := (2 : ℚ) ^ (max (Int.log 2 q) (-1022) - 52)

/-- A positive `q` rounded to the nearest multiple of its `ulp`, ties to even. -/
def roundMagnitude (q : ℚ) : ℚ := (roundHalfEven (q / ulp q) : ℚ) * ulp q

/-- The binary64 value of an exact result: round to nearest, ties to even; a rounded
magnitude of `2^1024` or more overflows to an infinity. -/
def binary64 (q : ℚ) : JSNum :=
  if q = 0 then .fin 0
  else if 0 < q then
    (if roundMagnitude q < 2 ^ 1024 then .fin (roundMagnitude q) else .posInf)
  else
    (if roundMagnitude (-q) < 2 ^ 1024 then .fin (-roundMagnitude (-q)) else .negInf)

namespace JSNum

/-- ToBoolean on a number: `0` and `NaN` are falsy, everything else is truthy. -/
def truthy : JSNum → Bool
  | fin q => decide (q ≠ 0)
  | posInf => true
  | negInf => true
  | nan => false

/-- The relational operator `a < b` (false as soon as an operand is NaN). -/
def lt : JSNum → JSNum → Bool
  | nan, _ => false
  | _, nan => false
  | fin a, fin b => decide (a < b)
  | fin _, posInf => true
  | fin _, negInf => false
  | posInf, _ => false
  | negInf, negInf => false
  | negInf, _ => true

/-- The relational operator `a > b`. -/
def gt (a b : JSNum) : Bool := lt b a

/-- The relational operator `a <= b` (false as soon as an operand is NaN). -/
def le : JSNum → JSNum → Bool
  | nan, _ => false
  | _, nan => false
  | fin a, fin b => decide (a ≤ b)
  | fin _, posInf => true
  | fin _, negInf => false
  | posInf, posInf => true
  | posInf, _ => false
  | negInf, _ => true

/-- Unary minus. -/
def neg : JSNum → JSNum
  | fin q => fin (-q)
  | posInf => negInf
  | negInf => posInf
  | nan => nan

/-- An infinity of the given sign: `+Infinity` for `true`. -/
def infOfSign (positive : Bool) : JSNum := if positive then posInf else negInf

/-- The operator `a * b`. -/
def mul : JSNum → JSNum → JSNum
  | nan, _ => nan
  | _, nan => nan
  | fin a, fin b => binary64 (a * b)
  | fin a, posInf => if a = 0 then nan else infOfSign (decide (0 < a))
  | fin a, negInf => if a = 0 then nan else infOfSign (decide (a < 0))
  | posInf, fin b => if b = 0 then nan else infOfSign (decide (0 < b))
  | negInf, fin b => if b = 0 then nan else infOfSign (decide (b < 0))
  | posInf, posInf => posInf
  | posInf, negInf => negInf
  | negInf, posInf => negInf
  | negInf, negInf => posInf

/-- The operator `a / b` (a zero divisor is taken as `+0`). -/
def div : JSNum → JSNum → JSNum
  | nan, _ => nan
  | _, nan => nan
  | fin a, fin b =>
    if b = 0 then (if a = 0 then nan else infOfSign (decide (0 < a))) else binary64 (a / b)
  | fin _, posInf => fin 0
  | fin _, negInf => fin 0
  | posInf, fin b => infOfSign (decide (0 ≤ b))
  | negInf, fin b => infOfSign (decide (b < 0))
  | posInf, _ => nan
  | negInf, _ => nan

/-- The operator `a - b`. -/
def sub : JSNum → JSNum → JSNum
  | nan, _ => nan
  | _, nan => nan
  | fin a, fin b => binary64 (a - b)
  | fin _, posInf => negInf
  | fin _, negInf => posInf
  | posInf, posInf => nan
  | posInf, _ => posInf
  | negInf, negInf => nan
  | negInf, _ => negInf

/-- The operator `a || 0` on a number: `a` when truthy, else `0`. -/
def orZero (a : JSNum) : JSNum := if a.truthy then a else fin 0

end JSNum

open JSNum

/-! ## Builtins `parseFloat` and `Number` on strings (ECMAScript grammar) -/

/-- StrWhiteSpaceChar: white space and line terminators. -/
def isStrWhiteSpaceChar (c : Char) : Bool :=
  let n := c.toNat
  n == 9 || n == 10 || n == 11 || n == 12 || n == 13 || n == 32 || n == 160 || n == 5760
    || (8192 ≤ n && n ≤ 8202) || n == 8232 || n == 8233 || n == 8239 || n == 8287
    || n == 12288 || n == 65279

/-- Value of a run of decimal digits. -/
def digitsValue (ds : List Char) : Nat :=
  ds.foldl (fun acc c => 10 * acc + (c.toNat - 48)) 0

/-- ExponentPart, when a complete one starts the input: its value and the rest;
otherwise exponent `0` and the input untouched. -/
def scanExponent (cs : List Char) : Int × List Char :=
  match cs with
  | [] => (0, [])
  | e :: rest =>
    if e = 'e' ∨ e = 'E' then
      let signed : Bool × List Char :=
        match rest with
        | '+' :: r => (false, r)
        | '-' :: r => (true, r)
        | r => (false, r)
      let ds := signed.2.span Char.isDigit
      if ds.1.isEmpty then (0, cs)
      else ((if signed.1 then -(digitsValue ds.1 : Int) else (digitsValue ds.1 : Int)), ds.2)
    else (0, cs)

/-- Mathematical value of `intDs.fracDs` times ten to the `e`. -/
def decimalValue (intDs fracDs : List Char) (e : Int) : ℚ :=
  (digitsValue (intDs ++ fracDs) : ℚ) * (10 : ℚ) ^ (e - (fracDs.length : Int))

/-- Longest StrUnsignedDecimalLiteral at the start of the input: its value, rounded to
binary64, and the rest. -/
def scanUnsigned (cs : List Char) : Option (JSNum × List Char) :=
  if "Infinity".toList.isPrefixOf cs then some (posInf, cs.drop 8)
  else
    let ip := cs.span Char.isDigit
    match ip.2 with
    | '.' :: r2 =>
      let fp := r2.span Char.isDigit
      if ip.1.isEmpty && fp.1.isEmpty then none
      else
        let ex := scanExponent fp.2
        some (binary64 (decimalValue ip.1 fp.1 ex.1), ex.2)
    | _ =>
      if ip.1.isEmpty then none
      else
        let ex := scanExponent ip.2
        some (binary64 (decimalValue ip.1 [] ex.1), ex.2)

/-- Longest StrDecimalLiteral (optional sign) at the start of the input. -/
def scanDecimal (cs : List Char) : Option (JSNum × List Char) :=
  match cs with
  | '+' :: r => scanUnsigned r
  | '-' :: r => (scanUnsigned r).map (fun p => (p.1.neg, p.2))
  | _ => scanUnsigned cs

/-- The builtin `parseFloat` on a string: skip leading white space, take the longest
decimal literal, `NaN` when there is none. -/
def parseFloat (s : String) : JSNum :=
  match scanDecimal (s.toList.dropWhile isStrWhiteSpaceChar) with
  | some p => p.1
  | none => nan

/-- Value of one digit in the given radix, if it is one. -/
def radixDigit (radix : Nat) (c : Char) : Option Nat :=
  let n := c.toNat
  let v := if 48 ≤ n ∧ n ≤ 57 then n - 48
    else if 97 ≤ n ∧ n ≤ 102 then n - 87
    else if 65 ≤ n ∧ n ≤ 70 then n - 55
    else radix
  if v < radix then some v else none

/-- Value of a non-empty run of digits in the given radix. -/
def radixValue (radix : Nat) (ds : List Char) : Option Nat :=
  if ds.isEmpty then none
  else ds.foldl (fun acc c => acc.bind (fun a => (radixDigit radix c).map (fun d => radix * a + d)))
    (some 0)

/-- NonDecimalIntegerLiteral: `0x`, `0o` and `0b` literals. -/
def scanNonDecimal (cs : List Char) : Option Nat :=
  match cs with
  | '0' :: m :: ds =>
    if m = 'x' ∨ m = 'X' then radixValue 16 ds
    else if m = 'o' ∨ m = 'O' then radixValue 8 ds
    else if m = 'b' ∨ m = 'B' then radixValue 2 ds
    else none
  | _ => none

/-- The builtin `Number` on a string (StringToNumber): the trimmed string is empty (`0`),
a whole numeric literal, or else `NaN`. -/
def toNumber (s : String) : JSNum :=
  let cs := ((s.toList.dropWhile isStrWhiteSpaceChar).reverse.dropWhile isStrWhiteSpaceChar).reverse
  if cs.isEmpty then fin 0
  else
    match scanNonDecimal cs with
    | some n => binary64 (n : ℚ)
    | none =>
      match scanDecimal cs with
      | some (v, []) => v
      | _ => nan

/-- The expression `parseFloat(el.value || 0)`: an empty field value is falsy, so the
number `0` is passed, which `parseFloat` first converts to the string `"0"`. -/
def parseFloatOrZero (value : String) : JSNum :=
  if value = "" then parseFloat "0" else parseFloat value

/-- The builtin `Math.round`: nearest integer, halves towards `+Infinity`. -/
def mathRound : JSNum → JSNum
  | fin q => fin ((⌊q + 1 / 2⌋ : ℤ) : ℚ)
  | posInf => posInf
  | negInf => negInf
  | nan => nan

/-! ## Page state and effects -/

/-- The parsed JSON body `data`, as far as the script reads it: its `pricePerGram`.
A body without that field behaves like one whose `pricePerGram` is `NaN`
(`Number(undefined)` is `NaN` and `undefined || 0` is `0`). -/
structure PriceRecord where
  pricePerGram : JSNum
  deriving DecidableEq

/-- What one network read of `fetchPrice` (lines 41 to 43) runs into. -/
inductive FetchOutcome where
  /-- The promise of `fetch` rejects. -/
  | networkError
  /-- The response arrives with `res.ok` false, so line 42 throws. -/
  | notOk
  /-- The promise of `res.json()` rejects. -/
  | malformedBody
  /-- The body is the JSON value `null`, so reading `data.pricePerGram` throws. -/
  | nullBody
  /-- The response is ok and its body parses to `data`. -/
  | ok (data : PriceRecord)
  deriving DecidableEq

/-- The attempt ends in the `catch` block. -/
def FetchOutcome.failed : FetchOutcome → Bool
  | .ok _ => false
  | _ => true

/-- A pending `setTimeout(() => fetchPrice(retry), delayMs)`. -/
structure Timer where
  delayMs : Nat
  retry : Nat
  deriving DecidableEq

/-- Observable steps of the script, in program order. -/
inductive Event where
  /-- Line 41: `fetchPrice(retry)` issues its network read. -/
  | fetch (retry : Nat)
  /-- Line 47: `console.warn`. -/
  | warn
  /-- Line 44: `updatePriceUI(price)` is called. -/
  | updatePriceUI (price : JSNum)
  /-- Line 50: a retry is scheduled. -/
  | setTimeout (t : Timer)
  /-- Line 53: the static message is assigned to the price surface. -/
  | fallback
  deriving DecidableEq

/-- An error thrown by the script. -/
inductive JSError where
  /-- Property access on `null`. -/
  | typeError
  deriving DecidableEq

/-- How a call ends: it returns (an async call: its promise fulfils) or it throws
(its promise rejects). -/
inductive Completion (α : Type) where
  | returned (value : α)
  | threw (error : JSError)
  deriving DecidableEq

/-- The object handed to `showCalcResult` on the success path (lines 97 to 100). -/
structure Estimate where
  weight : JSNum
  karat : JSNum
  condition : String
  feeInput : JSNum
  pricePerGram : JSNum
  gross : JSNum
  net : JSNum
  deriving DecidableEq

/-- The object handed to `showCalcResult`. -/
inductive CalcResult where
  | error (msg : String)
  | estimate (e : Estimate)
  deriving DecidableEq

/-- Content of the `#calc-result` container. -/
inductive CalcView where
  /-- The markup the page was loaded with. -/
  | initial
  /-- Lines 106 to 108: the error box. -/
  | errorBox (msg : String)
  /-- Lines 110 to 122: the estimate panel with its formatted figures. -/
  | estimatePanel (hargaDasar : String) (berat karat : JSNum) (kondisi : String)
      (gross net : String)
  deriving DecidableEq

/-- The part of the page the script reads and writes. -/
structure Page where
  /-- The `textContent` of `#gold-price`, `none` when the element does not exist. -/
  goldPrice : Option String
  /-- Content of `#calc-result`. -/
  calcResult : CalcView
  /-- Pending timers, oldest first. -/
  timers : List Timer
  /-- Steps taken so far. -/
  log : List Event
  deriving DecidableEq

/-- The static message of line 53. -/
def failMessage : String := "Tidak dapat memuat harga. Coba lagi."

/-- The message of line 83. -/
def weightError : String := "Masukkan berat yang valid (lebih dari 0)."

/-- Function `updatePriceUI` (lines 58 to 62).  `fmt` stands for the locale formatting
`toLocaleString('id-ID')`, whose output is implementation defined. -/
def updatePriceUI (fmt : JSNum → String) (price : JSNum) (pg : Page) : Page :=
  let pg1 := { pg with log := pg.log ++ [Event.updatePriceUI price] }
  match pg1.goldPrice with
  | none => pg1
  | some _ => { pg1 with goldPrice := some ("Rp " ++ fmt price) }

/-- One call `fetchPrice(retry)` (lines 39 to 56), run to completion for the given outcome
of its network read: what the call returns (`none` is `undefined`) and the page after it. -/
def fetchPrice (fmt : JSNum → String) (retry : Nat) (o : FetchOutcome) (pg : Page) :
    Completion (Option PriceRecord) × Page :=
  let pg1 := { pg with log := pg.log ++ [Event.fetch retry] }
  match o with
  | .ok data => (.returned (some data), updatePriceUI fmt data.pricePerGram pg1)
  | _ =>
    let pg2 := { pg1 with log := pg1.log ++ [Event.warn] }
    if retry < 2 then
      let t : Timer := { delayMs := 1000 * (retry + 1), retry := retry + 1 }
      (.returned none,
        { pg2 with timers := pg2.timers ++ [t], log := pg2.log ++ [Event.setTimeout t] })
    else
      match pg2.goldPrice with
      | some _ =>
        (.returned none,
          { pg2 with goldPrice := some failMessage, log := pg2.log ++ [Event.fallback] })
      | none => (.threw .typeError, pg2)

/-- The event loop firing pending timers in the order of their creation, at most `fuel` of
them: the callback of a timer calls `fetchPrice(t.retry)`, whose network read ends as
`net t.retry` says, and drops what the call returns or throws. -/
def eventLoop (fmt : JSNum → String) (net : Nat → FetchOutcome) : Nat → Page → Page
  | 0, pg => pg
  | fuel + 1, pg =>
    match pg.timers with
    | [] => pg
    | t :: rest =>
      eventLoop fmt net fuel (fetchPrice fmt t.retry (net t.retry) { pg with timers := rest }).2

/-- A fetch chain: the call `fetchPrice()` of line 67 or 68 (retry counter `0`) and the
retries it leads to; attempt `r` of the chain ends as `net r` says. -/
def runChain (fmt : JSNum → String) (net : Nat → FetchOutcome) (fuel : Nat) (pg : Page) : Page :=
  eventLoop fmt net fuel (fetchPrice fmt 0 (net 0) pg).2

/-- The retry counters of the network reads in a log, in order. -/
def attempts (log : List Event) : List Nat :=
  log.filterMap (fun ev => match ev with
    | .fetch r => some r
    | _ => none)

/-! ## Calculator -/

/-- Values of the form fields `#weight`, `#karat`, `#condition`, `#fee`. -/
structure CalcForm where
  weight : String
  karat : String
  condition : String
  fee : String
  deriving DecidableEq

/-- Line 91: `condition === 'rusak' ? 0.95 : 1`; the literal `0.95` denotes the binary64
value nearest to 95/100. -/
def conditionFactor (condition : String) : JSNum :=
  if condition = "rusak" then binary64 (95 / 100) else fin 1

/-- Line 92: `(feeInput && feeInput > 0) ? (1 - feeInput/100) : 1`. -/
def feeFactor (feeInput : JSNum) : JSNum :=
  if feeInput.truthy && feeInput.gt (fin 0) then (fin 1).sub (feeInput.div (fin 100)) else fin 1

/-- Function `showCalcResult` (lines 103 to 124): fills the container `#calc-result`
(which is taken to exist) with the error box or the estimate panel. -/
def showCalcResult (fmt : JSNum → String) (result : CalcResult) (pg : Page) : Page :=
  match result with
  | .error msg => { pg with calcResult := CalcView.errorBox msg }
  | .estimate e =>
    let panel := CalcView.estimatePanel (fmt e.pricePerGram) e.weight e.karat e.condition
      (fmt (mathRound e.gross)) (fmt (mathRound e.net))
    { pg with calcResult := panel }

/-- Function `handleCalcSubmit` (lines 75 to 101) for the given form values; `o` is the
outcome of the network read of its call `fetchPrice()`.  The completion carries the object
handed to `showCalcResult` (the JavaScript function itself resolves to `undefined`). -/
def handleCalcSubmit (fmt : JSNum → String) (form : CalcForm) (o : FetchOutcome) (pg : Page) :
    Completion CalcResult × Page :=
  let weight := parseFloatOrZero form.weight
  let karat := toNumber form.karat
  let condition := form.condition
  let feeInput := parseFloatOrZero form.fee
  if !weight.truthy || weight.le (fin 0) then
    (.returned (.error weightError), showCalcResult fmt (.error weightError) pg)
  else
    match fetchPrice fmt 0 o pg with
    | (.threw err, pg1) => (.threw err, pg1)
    | (.returned fetched, pg1) =>
      let data : PriceRecord := fetched.getD { pricePerGram := fin 0 }
      let pricePerGram := data.pricePerGram.orZero
      let karatFactor := karat.div (fin 24)
      let gross := (weight.mul pricePerGram).mul karatFactor
      let net := (gross.mul (conditionFactor condition)).mul (feeFactor feeInput)
      let result : CalcResult := .estimate
        { weight := weight, karat := karat, condition := condition, feeInput := feeInput,
          pricePerGram := pricePerGram, gross := gross, net := net }
      (.returned result, showCalcResult fmt result pg1)

/-- The record a network read delivers, if it succeeds. -/
def FetchOutcome.record : FetchOutcome → Option PriceRecord
  | .ok data => some data
  | _ => none

/-! ## A concrete formatter -/

/-- Dots between groups of three digits, on the reversed digit list. -/
def insertDots : List Char → List Char
  | a :: b :: c :: d :: rest => a :: b :: c :: '.' :: insertDots (d :: rest)
  | ds => ds

/-- A formatter in the id-ID conventions (dots between thousands, decimal comma, at most
three fraction digits), for use where a concrete `fmt` is wanted. -/
def idFormat : JSNum → String
  | fin q =>
    let n : Nat := (⌊|q| * 1000 + 1 / 2⌋ : ℤ).toNat
    let intPart := String.mk (insertDots (Nat.toDigits 10 (n / 1000)).reverse).reverse
    let fracDs := (((Nat.toDigits 10 (1000 + n % 1000)).drop 1).reverse.dropWhile
      (fun c => c == '0')).reverse
    let body := if fracDs.isEmpty then intPart else intPart ++ "," ++ String.mk fracDs
    if q < 0 ∧ n ≠ 0 then "-" ++ body else body
  | posInf => "∞"
  | negInf => "-∞"
  | nan => "NaN"

/-- A page with a price surface, before the script has written anything. -/
def freshPage : Page := { goldPrice := some "", calcResult := .initial, timers := [], log := [] }

/-- A page without the element `#gold-price`. -/
def barePage : Page := { goldPrice := none, calcResult := .initial, timers := [], log := [] }

/-! ## Rounding lemmas -/

theorem roundHalfEven_le {x : ℚ} {N : ℤ} (h : x ≤ N) : roundHalfEven x ≤ N := by
  have hf : ⌊x⌋ ≤ N := by exact_mod_cast (Int.floor_le x).trans h
  have hstep : ¬ (x - ⌊x⌋ < 1 / 2) → ⌊x⌋ + 1 ≤ N := by
    intro hnot
    rcases eq_or_lt_of_le hf with heq | hlt
    · exfalso
      apply hnot
      rw [heq]
      linarith
    · omega
  unfold roundHalfEven
  split_ifs with h1 h2 h3
  · exact hf
  · exact hstep h1
  · exact hf
  · exact hstep h1

theorem le_roundHalfEven {x : ℚ} {N : ℤ} (h : (N : ℚ) ≤ x) : N ≤ roundHalfEven x := by
  have hf : N ≤ ⌊x⌋ := Int.le_floor.mpr h
  unfold roundHalfEven
  split_ifs <;> omega

theorem roundHalfEven_of_near {x : ℚ} {m : ℤ} (h : |x - m| < 1 / 2) : roundHalfEven x = m := by
  rw [abs_lt] at h
  obtain ⟨hlo, hhi⟩ := h
  by_cases hx : (m : ℚ) ≤ x
  · have hfl : ⌊x⌋ = m := Int.floor_eq_iff.mpr ⟨hx, by linarith⟩
    unfold roundHalfEven
    rw [hfl, if_pos (by linarith)]
  · have hfl : ⌊x⌋ = m - 1 := Int.floor_eq_iff.mpr ⟨by push_cast; linarith, by push_cast; linarith⟩
    unfold roundHalfEven
    rw [hfl, if_neg (by push_cast; linarith), if_pos (by push_cast; linarith)]
    ring

theorem ulp_pos (q : ℚ) : 0 < ulp q := by
  unfold ulp
  positivity

theorem roundMagnitude_nonneg {q : ℚ} (hq : 0 ≤ q) : 0 ≤ roundMagnitude q := by
  unfold roundMagnitude
  have h : (0 : ℤ) ≤ roundHalfEven (q / ulp q) :=
    le_roundHalfEven (by simpa using div_nonneg hq (le_of_lt (ulp_pos q)))
  exact mul_nonneg (by exact_mod_cast h) (le_of_lt (ulp_pos q))

theorem log_eq_of_bounds {q : ℚ} {e : ℤ} (hq : 0 < q) (h1 : (2 : ℚ) ^ e ≤ q)
    (h2 : q < (2 : ℚ) ^ (e + 1)) : Int.log 2 q = e := by
  apply le_antisymm
  · have := (Int.lt_zpow_iff_log_lt (b := 2) (by norm_num) hq).mp (by simpa using h2)
    omega
  · exact (Int.zpow_le_iff_le_log (b := 2) (by norm_num) hq).mp (by simpa using h1)

theorem binary64_neg (q : ℚ) : binary64 (-q) = (binary64 q).neg := by
  rcases lt_trichotomy q 0 with h | h | h
  · have h1 : ¬ (-q = 0) := by linarith [h]
    have h2 : 0 < -q := by linarith
    have h3 : ¬ (q = 0) := ne_of_lt h
    have h4 : ¬ (0 < q) := not_lt.mpr (le_of_lt h)
    simp only [binary64, h1, h2, h3, h4, if_true, if_false]
    split_ifs <;> simp [JSNum.neg]
  · subst h; simp [binary64, JSNum.neg]
  · have h1 : ¬ (-q = 0) := by linarith [h]
    have h2 : ¬ (0 < -q) := by linarith
    have h3 : ¬ (q = 0) := ne_of_gt h
    simp only [binary64, h1, h2, h3, h, if_true, if_false, neg_neg]
    split_ifs <;> simp [JSNum.neg]

theorem binary64_nonneg {q : ℚ} (hq : 0 ≤ q) :
    binary64 q = posInf ∨ ∃ r : ℚ, binary64 q = fin r ∧ 0 ≤ r := by
  rcases eq_or_lt_of_le hq with h | h
  · right; exact ⟨0, by simp [binary64, ← h], le_refl 0⟩
  · have h3 : ¬ (q = 0) := ne_of_gt h
    simp only [binary64, h3, h, if_true, if_false]
    split_ifs
    · right; exact ⟨_, rfl, roundMagnitude_nonneg hq⟩
    · left; rfl

theorem binary64_of_pos {q g : ℚ} (hg : binary64 q = fin g) (hpos : 0 < g) :
    0 < q ∧ g = roundMagnitude q ∧ roundMagnitude q < 2 ^ 1024 := by
  rcases lt_trichotomy q 0 with h | h | h
  · exfalso
    have h3 : ¬ (q = 0) := ne_of_lt h
    have h4 : ¬ (0 < q) := not_lt.mpr (le_of_lt h)
    simp only [binary64, h3, h4, if_false] at hg
    split_ifs at hg
    injection hg with hg
    have := roundMagnitude_nonneg (q := -q) (by linarith)
    linarith
  · exfalso
    subst h
    simp [binary64] at hg
    linarith
  · have h3 : ¬ (q = 0) := ne_of_gt h
    simp only [binary64, h3, h, if_true, if_false] at hg
    split_ifs at hg with hlt
    injection hg with hg
    exact ⟨h, hg.symm, hlt⟩

theorem binary64_eq_of_near {q : ℚ} (e : ℤ) (m : ℤ) (r : ℚ) (hq : 0 < q)
    (h1 : (2 : ℚ) ^ e ≤ q) (h2 : q < (2 : ℚ) ^ (e + 1)) (hmin : -1022 ≤ e)
    (hm : |q / (2 : ℚ) ^ (e - 52) - m| < 1 / 2) (hr : r = m * (2 : ℚ) ^ (e - 52))
    (hmax : r < 2 ^ 1024) : binary64 q = fin r := by
  have hlog := log_eq_of_bounds hq h1 h2
  have hulp : ulp q = (2 : ℚ) ^ (e - 52) := by
    unfold ulp; rw [hlog, max_eq_left hmin]
  have hrm : roundMagnitude q = r := by
    unfold roundMagnitude
    rw [hulp, roundHalfEven_of_near hm, hr]
  have h3 : ¬ (q = 0) := ne_of_gt hq
  simp only [binary64, h3, hq, if_true, if_false, hrm, hmax]

theorem binary64_fin_abs_lt {q g : ℚ} (hg : binary64 q = fin g) : |g| < 2 ^ 1024 := by
  rcases lt_trichotomy q 0 with h | h | h
  · have h3 : ¬ (q = 0) := ne_of_lt h
    have h4 : ¬ (0 < q) := not_lt.mpr (le_of_lt h)
    simp only [binary64, h3, h4, if_false] at hg
    split_ifs at hg with hlt
    injection hg with hg
    have := roundMagnitude_nonneg (q := -q) (by linarith)
    rw [← hg, abs_neg, abs_of_nonneg this]
    exact hlt
  · subst h
    simp [binary64] at hg
    rw [← hg]; norm_num
  · have h3 : ¬ (q = 0) := ne_of_gt h
    simp only [binary64, h3, h, if_true, if_false] at hg
    split_ifs at hg with hlt
    injection hg with hg
    have := roundMagnitude_nonneg (q := q) (le_of_lt h)
    rw [← hg, abs_of_nonneg this]
    exact hlt

theorem ulp_eq (q : ℚ) : ulp q = (2 : ℚ) ^ (max (Int.log 2 q) (-1022) - 52) := rfl

/-- A positive binary64 value is a whole multiple of the spacing around any smaller
positive number. -/
theorem grid_of_binary64 {q g x : ℚ} (hg : binary64 q = fin g) (hq1 : 0 < x)
    (hle : x ≤ g) : ∃ K : ℤ, g = K * ulp x := by
  have hgpos : 0 < g := lt_of_lt_of_le hq1 hle
  obtain ⟨hq, hgr, -⟩ := binary64_of_pos hg hgpos
  set e0 : ℤ := max (Int.log 2 q) (-1022) with he0
  have hmin0 : -1022 ≤ e0 := le_max_right _ _
  have hlog0 : Int.log 2 q ≤ e0 := le_max_left _ _
  have hulp0 : ulp q = (2 : ℚ) ^ (e0 - 52) := rfl
  have hqlt : q < (2 : ℚ) ^ (e0 + 1) := by
    have h := Int.lt_zpow_succ_log_self (b := 2) (by norm_num) q
    have h' : ((2 : ℕ) : ℚ) ^ (Int.log 2 q + 1) ≤ (2 : ℚ) ^ (e0 + 1) := by
      simpa using zpow_le_zpow_right₀ (a := (2 : ℚ)) (by norm_num) (by omega : Int.log 2 q + 1 ≤ e0 + 1)
    exact lt_of_lt_of_le h h'
  have hsplit : (2 : ℚ) ^ (e0 + 1) = (2 : ℚ) ^ (53 : ℕ) * (2 : ℚ) ^ (e0 - 52) := by
    rw [← zpow_natCast, ← zpow_add₀ (by norm_num : (2 : ℚ) ≠ 0)]
    congr 1
    push_cast
    ring
  have hM : roundHalfEven (q / ulp q) ≤ 2 ^ 53 := by
    apply roundHalfEven_le
    have h53 : ((2 ^ 53 : ℤ) : ℚ) = (2 : ℚ) ^ (53 : ℕ) := by norm_num
    rw [hulp0, div_le_iff₀ (by positivity), h53, ← hsplit]
    exact le_of_lt hqlt
  have hgle : g ≤ (2 : ℚ) ^ (e0 + 1) := by
    rw [hgr, roundMagnitude, hulp0, hsplit]
    apply mul_le_mul_of_nonneg_right _ (by positivity)
    exact_mod_cast hM
  by_cases hcase : x < (2 : ℚ) ^ (e0 + 1)
  · have hl : Int.log 2 x < e0 + 1 :=
      (Int.lt_zpow_iff_log_lt (b := 2) (by norm_num) hq1).mp (by simpa using hcase)
    have he1 : max (Int.log 2 x) (-1022) ≤ e0 := max_le (by omega) hmin0
    obtain ⟨d, hd⟩ : ∃ d : ℕ, e0 = max (Int.log 2 x) (-1022) + d :=
      ⟨(e0 - max (Int.log 2 x) (-1022)).toNat, by omega⟩
    refine ⟨roundHalfEven (q / ulp q) * 2 ^ d, ?_⟩
    rw [hgr, roundMagnitude, hulp0, ulp_eq x]
    push_cast
    rw [mul_assoc, ← zpow_natCast (2 : ℚ) d, ← zpow_add₀ (by norm_num : (2 : ℚ) ≠ 0)]
    congr 2
    omega
  · have hq1eq : x = (2 : ℚ) ^ (e0 + 1) := le_antisymm (hle.trans hgle) (not_lt.mp hcase)
    have hgeq : g = (2 : ℚ) ^ (e0 + 1) := le_antisymm hgle (by rw [← hq1eq]; exact hle)
    have hl : Int.log 2 x = e0 + 1 := by
      rw [hq1eq]
      simpa using Int.log_zpow (R := ℚ) (b := 2) (by norm_num) (e0 + 1)
    refine ⟨2 ^ 52, ?_⟩
    have h52 : ((2 ^ 52 : ℤ) : ℚ) = (2 : ℚ) ^ (52 : ℕ) := by norm_num
    rw [hgeq, ulp_eq x, hl, max_eq_left (by omega), h52, ← zpow_natCast (2 : ℚ) 52,
      ← zpow_add₀ (by norm_num : (2 : ℚ) ≠ 0)]
    congr 1
    push_cast
    ring

/-- Rounding does not cross a binary64 value: the result for `0 ≤ x ≤ g` stays in
`[0, g]`. -/
theorem binary64_le_of_le {q g x : ℚ} (hg : binary64 q = fin g) (h0 : 0 ≤ x)
    (hle : x ≤ g) : ∃ r : ℚ, binary64 x = fin r ∧ 0 ≤ r ∧ r ≤ g := by
  rcases eq_or_lt_of_le h0 with h | h
  · exact ⟨0, by simp [binary64, ← h], le_refl 0, h0.trans hle⟩
  · obtain ⟨K, hK⟩ := grid_of_binary64 hg h hle
    have hrm : roundMagnitude x ≤ g := by
      have hdiv : x / ulp x ≤ (K : ℚ) := by
        rw [div_le_iff₀ (ulp_pos x), ← hK]; exact hle
      have := roundHalfEven_le hdiv
      rw [roundMagnitude, hK]
      apply mul_le_mul_of_nonneg_right _ (le_of_lt (ulp_pos x))
      exact_mod_cast this
    have hglt : g < 2 ^ 1024 := lt_of_le_of_lt (le_abs_self g) (binary64_fin_abs_lt hg)
    have h3 : ¬ (x = 0) := ne_of_gt h
    refine ⟨roundMagnitude x, ?_, roundMagnitude_nonneg h0, hrm⟩
    simp only [binary64, h3, h, if_true, if_false, lt_of_le_of_lt hrm hglt]

/-- The same on magnitudes. -/
theorem binary64_abs_le {q g x : ℚ} (hg : binary64 q = fin g) (hle : |x| ≤ |g|) :
    ∃ r : ℚ, binary64 x = fin r ∧ |r| ≤ |g| := by
  obtain ⟨q0, hg0⟩ : ∃ q0, binary64 q0 = fin |g| := by
    rcases le_total 0 g with h | h
    · exact ⟨q, by rw [abs_of_nonneg h]; exact hg⟩
    · exact ⟨-q, by rw [binary64_neg, hg, abs_of_nonpos h]; rfl⟩
  rcases le_total 0 x with h | h
  · obtain ⟨r, hr, hr0, hrle⟩ := binary64_le_of_le hg0 h (by rwa [abs_of_nonneg h] at hle)
    exact ⟨r, hr, by rwa [abs_of_nonneg hr0]⟩
  · obtain ⟨r, hr, hr0, hrle⟩ :=
      binary64_le_of_le hg0 (x := -x) (by linarith) (by rwa [abs_of_nonpos h] at hle)
    refine ⟨-r, ?_, by rwa [abs_neg, abs_of_nonneg hr0]⟩
    have := binary64_neg (-x)
    rw [neg_neg, hr] at this
    exact this

theorem binary64_zero : binary64 0 = fin 0 := by simp [binary64]

theorem binary64_one : binary64 1 = fin 1 :=
  binary64_eq_of_near 0 (2 ^ 52) 1 (by norm_num) (by norm_num) (by norm_num)
    (by norm_num) (by norm_num) (by norm_num) (by norm_num)

theorem binary64_neg_eq_of_near {q : ℚ} (e : ℤ) (m : ℤ) (r : ℚ) (hq : 0 < -q)
    (h1 : (2 : ℚ) ^ e ≤ -q) (h2 : -q < (2 : ℚ) ^ (e + 1)) (hmin : -1022 ≤ e)
    (hm : |-q / (2 : ℚ) ^ (e - 52) - m| < 1 / 2) (hr : r = -(m * (2 : ℚ) ^ (e - 52)))
    (hmax : -r < 2 ^ 1024) : binary64 q = fin r := by
  have h := binary64_eq_of_near (q := -q) e m (-r) hq h1 h2 hmin hm (by rw [hr, neg_neg]) hmax
  have h2 := binary64_neg (-q)
  rw [neg_neg, h] at h2
  rw [h2]
  simp [JSNum.neg]

theorem mul_fin (a b : ℚ) : (fin a).mul (fin b) = binary64 (a * b) := rfl

theorem sub_fin (a b : ℚ) : (fin a).sub (fin b) = binary64 (a - b) := rfl

theorem div_fin (a b : ℚ) (hb : b ≠ 0) : (fin a).div (fin b) = binary64 (a / b) := by
  simp [JSNum.div, hb]

theorem binary64_5 : binary64 5 = fin 5 := by
  exact binary64_eq_of_near 2 5629499534213120 _ (by norm_num) (by norm_num) (by norm_num)
    (by norm_num) (by norm_num [abs_lt]) (by norm_num) (by norm_num)

theorem binary64_7 : binary64 7 = fin 7 := by
  exact binary64_eq_of_near 2 7881299347898368 _ (by norm_num) (by norm_num) (by norm_num)
    (by norm_num) (by norm_num [abs_lt]) (by norm_num) (by norm_num)

theorem binary64_10 : binary64 10 = fin 10 := by
  exact binary64_eq_of_near 3 5629499534213120 _ (by norm_num) (by norm_num) (by norm_num)
    (by norm_num) (by norm_num [abs_lt]) (by norm_num) (by norm_num)

theorem binary64_18 : binary64 18 = fin 18 := by
  exact binary64_eq_of_near 4 5066549580791808 _ (by norm_num) (by norm_num) (by norm_num)
    (by norm_num) (by norm_num [abs_lt]) (by norm_num) (by norm_num)

theorem binary64_22 : binary64 22 = fin 22 := by
  exact binary64_eq_of_near 4 6192449487634432 _ (by norm_num) (by norm_num) (by norm_num)
    (by norm_num) (by norm_num [abs_lt]) (by norm_num) (by norm_num)

theorem binary64_24 : binary64 24 = fin 24 := by
  exact binary64_eq_of_near 4 6755399441055744 _ (by norm_num) (by norm_num) (by norm_num)
    (by norm_num) (by norm_num [abs_lt]) (by norm_num) (by norm_num)

theorem binary64_200 : binary64 200 = fin 200 := by
  exact binary64_eq_of_near 7 7036874417766400 _ (by norm_num) (by norm_num) (by norm_num)
    (by norm_num) (by norm_num [abs_lt]) (by norm_num) (by norm_num)

theorem binary64_095 : binary64 (95 / 100) = fin (4278419646001971 / 4503599627370496) := by
  exact binary64_eq_of_near (-1) 8556839292003942 _ (by norm_num) (by norm_num) (by norm_num)
    (by norm_num) (by norm_num [abs_lt]) (by norm_num) (by norm_num)

theorem mul_10_1000000 : (fin 10).mul (fin 1000000) = fin 10000000 := by
  show binary64 (10 * 1000000) = _
  exact binary64_eq_of_near 23 5368709120000000 _ (by norm_num) (by norm_num) (by norm_num)
    (by norm_num) (by norm_num [abs_lt]) (by norm_num) (by norm_num)

theorem div_24_24 : (fin 24).div (fin 24) = fin 1 := by
  rw [div_fin _ _ (by norm_num)]
  exact binary64_eq_of_near 0 4503599627370496 _ (by norm_num) (by norm_num) (by norm_num)
    (by norm_num) (by norm_num [abs_lt]) (by norm_num) (by norm_num)

theorem mul_10000000_1 : (fin 10000000).mul (fin 1) = fin 10000000 := by
  show binary64 (10000000 * 1) = _
  exact binary64_eq_of_near 23 5368709120000000 _ (by norm_num) (by norm_num) (by norm_num)
    (by norm_num) (by norm_num [abs_lt]) (by norm_num) (by norm_num)

theorem div_18_24 : (fin 18).div (fin 24) = fin (3 / 4) := by
  rw [div_fin _ _ (by norm_num)]
  exact binary64_eq_of_near (-1) 6755399441055744 _ (by norm_num) (by norm_num) (by norm_num)
    (by norm_num) (by norm_num [abs_lt]) (by norm_num) (by norm_num)

theorem mul_10000000_34 : (fin 10000000).mul (fin (3 / 4)) = fin 7500000 := by
  show binary64 (10000000 * (3 / 4)) = _
  exact binary64_eq_of_near 22 8053063680000000 _ (by norm_num) (by norm_num) (by norm_num)
    (by norm_num) (by norm_num [abs_lt]) (by norm_num) (by norm_num)

theorem mul_7500000_c95 : (fin 7500000).mul (fin (4278419646001971 / 4503599627370496)) = fin 7125000 := by
  show binary64 (7500000 * (4278419646001971 / 4503599627370496)) = _
  exact binary64_eq_of_near 22 7650410496000000 _ (by norm_num) (by norm_num) (by norm_num)
    (by norm_num) (by norm_num [abs_lt]) (by norm_num) (by norm_num)

theorem div_5_100 : (fin 5).div (fin 100) = fin (3602879701896397 / 72057594037927936) := by
  rw [div_fin _ _ (by norm_num)]
  exact binary64_eq_of_near (-5) 7205759403792794 _ (by norm_num) (by norm_num) (by norm_num)
    (by norm_num) (by norm_num [abs_lt]) (by norm_num) (by norm_num)

theorem sub_1_c05 : (fin 1).sub (fin (3602879701896397 / 72057594037927936)) = fin (4278419646001971 / 4503599627370496) := by
  show binary64 (1 - (3602879701896397 / 72057594037927936)) = _
  exact binary64_eq_of_near (-1) 8556839292003942 _ (by norm_num) (by norm_num) (by norm_num)
    (by norm_num) (by norm_num [abs_lt]) (by norm_num) (by norm_num)

theorem mul_7125000_c95 : (fin 7125000).mul (fin (4278419646001971 / 4503599627370496)) = fin 6768750 := by
  show binary64 (7125000 * (4278419646001971 / 4503599627370496)) = _
  exact binary64_eq_of_near 22 7267889971200000 _ (by norm_num) (by norm_num) (by norm_num)
    (by norm_num) (by norm_num [abs_lt]) (by norm_num) (by norm_num)

theorem mul_7_1000000 : (fin 7).mul (fin 1000000) = fin 7000000 := by
  show binary64 (7 * 1000000) = _
  exact binary64_eq_of_near 22 7516192768000000 _ (by norm_num) (by norm_num) (by norm_num)
    (by norm_num) (by norm_num [abs_lt]) (by norm_num) (by norm_num)

theorem div_22_24 : (fin 22).div (fin 24) = fin (8256599316845909 / 9007199254740992) := by
  rw [div_fin _ _ (by norm_num)]
  exact binary64_eq_of_near (-1) 8256599316845909 _ (by norm_num) (by norm_num) (by norm_num)
    (by norm_num) (by norm_num [abs_lt]) (by norm_num) (by norm_num)

theorem mul_7000000_c : (fin 7000000).mul (fin (8256599316845909 / 9007199254740992)) = fin (3444921685333333 / 536870912) := by
  show binary64 (7000000 * (8256599316845909 / 9007199254740992)) = _
  exact binary64_eq_of_near 22 6889843370666666 _ (by norm_num) (by norm_num) (by norm_num)
    (by norm_num) (by norm_num [abs_lt]) (by norm_num) (by norm_num)

theorem div_200_100 : (fin 200).div (fin 100) = fin 2 := by
  rw [div_fin _ _ (by norm_num)]
  exact binary64_eq_of_near 1 4503599627370496 _ (by norm_num) (by norm_num) (by norm_num)
    (by norm_num) (by norm_num [abs_lt]) (by norm_num) (by norm_num)

theorem sub_1_2 : (fin 1).sub (fin 2) = fin (-1) := by
  show binary64 (1 - 2) = _
  exact binary64_neg_eq_of_near 0 4503599627370496 _ (by norm_num) (by norm_num) (by norm_num)
    (by norm_num) (by norm_num [abs_lt]) (by norm_num) (by norm_num)

theorem mul_10000000_neg1 : (fin 10000000).mul (fin (-1)) = fin (-10000000) := by
  show binary64 (10000000 * (-1)) = _
  exact binary64_neg_eq_of_near 23 5368709120000000 _ (by norm_num) (by norm_num) (by norm_num)
    (by norm_num) (by norm_num [abs_lt]) (by norm_num) (by norm_num)

/-! ## Evaluation lemmas -/

theorem fetchPrice_failed_lt (fmt : JSNum → String) (retry : Nat) (o : FetchOutcome) (pg : Page)
    (ho : o.failed = true) (hr : retry < 2) :
    fetchPrice fmt retry o pg =
      (.returned none,
        { pg with
          timers := pg.timers ++ [{ delayMs := 1000 * (retry + 1), retry := retry + 1 }],
          log := pg.log ++ [Event.fetch retry, Event.warn,
            Event.setTimeout { delayMs := 1000 * (retry + 1), retry := retry + 1 }] }) := by
  cases o <;> simp [FetchOutcome.failed] at ho <;> simp [fetchPrice, hr]

theorem fetchPrice_failed_ge (fmt : JSNum → String) (retry : Nat) (o : FetchOutcome) (pg : Page)
    (ho : o.failed = true) (hr : 2 ≤ retry) :
    fetchPrice fmt retry o pg =
      match pg.goldPrice with
      | some _ =>
        (.returned none,
          { pg with goldPrice := some failMessage,
                    log := pg.log ++ [Event.fetch retry, Event.warn, Event.fallback] })
      | none => (.threw .typeError, { pg with log := pg.log ++ [Event.fetch retry, Event.warn] }) := by
  have hr2 : ¬ retry < 2 := by omega
  cases o <;> simp [FetchOutcome.failed] at ho <;> cases hg : pg.goldPrice <;>
    simp [fetchPrice, hr2, hg]

theorem eventLoop_idle (fmt : JSNum → String) (net : Nat → FetchOutcome) (fuel : Nat) (pg : Page)
    (h : pg.timers = []) : eventLoop fmt net fuel pg = pg := by
  cases fuel <;> simp [eventLoop, h]

theorem fetchPrice_ok_page (fmt : JSNum → String) (retry : Nat) (d : PriceRecord) (pg : Page) :
    (fetchPrice fmt retry (.ok d) pg).2 =
      { pg with
        goldPrice := pg.goldPrice.map (fun _ => "Rp " ++ fmt d.pricePerGram),
        log := pg.log ++ [Event.fetch retry, Event.updatePriceUI d.pricePerGram] } := by
  obtain ⟨gp, cr, ts, lg⟩ := pg
  cases gp <;> simp [fetchPrice, updatePriceUI]

theorem fetchPrice_failed_ge_page (fmt : JSNum → String) (retry : Nat) (o : FetchOutcome)
    (pg : Page) (ho : o.failed = true) (hr : 2 ≤ retry) :
    (fetchPrice fmt retry o pg).2 =
      { pg with
        goldPrice := pg.goldPrice.map (fun _ => failMessage),
        log := pg.log ++ [Event.fetch retry, Event.warn] ++
          (if pg.goldPrice.isSome then [Event.fallback] else []) } := by
  obtain ⟨gp, cr, ts, lg⟩ := pg
  rw [fetchPrice_failed_ge fmt retry o _ ho hr]
  cases gp <;> simp

theorem failed_eq_false (o : FetchOutcome) (h : o.failed = false) : ∃ d, o = .ok d := by
  cases o <;> simp [FetchOutcome.failed] at h
  exact ⟨_, rfl⟩

theorem attempts_append (l₁ l₂ : List Event) : attempts (l₁ ++ l₂) = attempts l₁ ++ attempts l₂ := by
  simp [attempts, List.filterMap_append]

theorem chain_two_failures (fmt : JSNum → String) (net : Nat → FetchOutcome) (n : Nat)
    (pg : Page) (ht : pg.timers = []) (h0 : (net 0).failed = true) (h1 : (net 1).failed = true) :
    runChain fmt net (n + 2) pg =
      eventLoop fmt net n
        (fetchPrice fmt 2 (net 2)
          { pg with log := pg.log ++ [Event.fetch 0, Event.warn,
              Event.setTimeout { delayMs := 1000, retry := 1 }, Event.fetch 1, Event.warn,
              Event.setTimeout { delayMs := 2000, retry := 2 }] }).2 := by
  simp [runChain, eventLoop, fetchPrice_failed_lt, h0, h1, ht]

theorem chain_attempts_le (fmt : JSNum → String) (net : Nat → FetchOutcome) (fuel : Nat)
    (pg : Page) (ht : pg.timers = []) :
    (attempts (runChain fmt net fuel pg).log).length ≤ (attempts pg.log).length + 3 := by
  cases h0 : (net 0).failed
  · obtain ⟨d, hd⟩ := failed_eq_false _ h0
    rw [runChain, hd, fetchPrice_ok_page, eventLoop_idle _ _ _ _ (by simpa using ht)]
    simp [attempts_append, attempts]
  · rcases fuel with _ | fuel
    · simp [runChain, eventLoop, fetchPrice_failed_lt, h0, attempts_append, attempts]
    · cases h1 : (net 1).failed
      · obtain ⟨d, hd⟩ := failed_eq_false _ h1
        simp only [runChain, eventLoop, fetchPrice_failed_lt _ _ _ _ h0 (by decide : 0 < 2), ht,
          List.nil_append, hd, fetchPrice_ok_page]
        rw [eventLoop_idle _ _ _ _ (by simp)]
        simp [attempts_append, attempts]
      · rcases fuel with _ | fuel
        · simp [runChain, eventLoop, fetchPrice_failed_lt, h0, h1, ht, attempts_append, attempts]
        · rw [chain_two_failures fmt net fuel pg ht h0 h1]
          cases h2 : (net 2).failed
          · obtain ⟨d, hd⟩ := failed_eq_false _ h2
            rw [hd, fetchPrice_ok_page, eventLoop_idle _ _ _ _ (by simpa using ht)]
            simp [attempts_append, attempts]
          · rw [fetchPrice_failed_ge_page _ _ _ _ h2 (le_refl 2),
              eventLoop_idle _ _ _ _ (by simpa using ht)]
            cases pg.goldPrice <;> simp [attempts_append, attempts]

theorem guard_eq_not_gt (w : JSNum) : (!w.truthy || w.le (fin 0)) = !(w.gt (fin 0)) := by
  cases w with
  | fin q =>
    rcases lt_trichotomy q 0 with h | h | h
    · have h1 : q ≠ 0 := ne_of_lt h
      have h2 : ¬ 0 < q := not_lt.mpr (le_of_lt h)
      simp [truthy, le, gt, lt, h1, h2, le_of_lt h]
    · simp [truthy, le, gt, lt, h]
    · have h1 : q ≠ 0 := ne_of_gt h
      have h2 : ¬ q ≤ 0 := not_le.mpr h
      simp [truthy, le, gt, lt, h1, h2, h]
  | posInf => rfl
  | negInf => rfl
  | nan => rfl

theorem gt_zero_iff (w : JSNum) :
    w.gt (fin 0) = true ↔ w = posInf ∨ ∃ q : ℚ, w = fin q ∧ 0 < q := by
  cases w <;> simp [gt, lt]

theorem fetchPrice_zero_fst (fmt : JSNum → String) (o : FetchOutcome) (pg : Page) :
    (fetchPrice fmt 0 o pg).1 = .returned o.record := by
  cases o <;> simp [fetchPrice, FetchOutcome.record]

theorem handleCalcSubmit_rejected (fmt : JSNum → String) (form : CalcForm) (o : FetchOutcome)
    (pg : Page) (h : (parseFloatOrZero form.weight).gt (fin 0) = false) :
    handleCalcSubmit fmt form o pg =
      (.returned (.error weightError), { pg with calcResult := .errorBox weightError }) := by
  simp [handleCalcSubmit, guard_eq_not_gt, h, showCalcResult]

theorem handleCalcSubmit_accepted (fmt : JSNum → String) (form : CalcForm) (o : FetchOutcome)
    (pg : Page) (h : (parseFloatOrZero form.weight).gt (fin 0) = true) :
    handleCalcSubmit fmt form o pg =
      (.returned (.estimate
        { weight := parseFloatOrZero form.weight
          karat := toNumber form.karat
          condition := form.condition
          feeInput := parseFloatOrZero form.fee
          pricePerGram := (o.record.getD { pricePerGram := fin 0 }).pricePerGram.orZero
          gross := ((parseFloatOrZero form.weight).mul
            (o.record.getD { pricePerGram := fin 0 }).pricePerGram.orZero).mul
              ((toNumber form.karat).div (fin 24))
          net := ((((parseFloatOrZero form.weight).mul
            (o.record.getD { pricePerGram := fin 0 }).pricePerGram.orZero).mul
              ((toNumber form.karat).div (fin 24))).mul (conditionFactor form.condition)).mul
                (feeFactor (parseFloatOrZero form.fee)) }),
        showCalcResult fmt (.estimate
        { weight := parseFloatOrZero form.weight
          karat := toNumber form.karat
          condition := form.condition
          feeInput := parseFloatOrZero form.fee
          pricePerGram := (o.record.getD { pricePerGram := fin 0 }).pricePerGram.orZero
          gross := ((parseFloatOrZero form.weight).mul
            (o.record.getD { pricePerGram := fin 0 }).pricePerGram.orZero).mul
              ((toNumber form.karat).div (fin 24))
          net := ((((parseFloatOrZero form.weight).mul
            (o.record.getD { pricePerGram := fin 0 }).pricePerGram.orZero).mul
              ((toNumber form.karat).div (fin 24))).mul (conditionFactor form.condition)).mul
                (feeFactor (parseFloatOrZero form.fee)) }) (fetchPrice fmt 0 o pg).2) := by
  have hfst := fetchPrice_zero_fst fmt o pg
  unfold handleCalcSubmit
  simp only [guard_eq_not_gt, h]
  rcases hfp : fetchPrice fmt 0 o pg with ⟨c, pg1⟩
  rw [hfp] at hfst
  simp only at hfst
  subst hfst
  simp

theorem feeFactor_of_gt (f : JSNum) (h : f.gt (fin 0) = true) :
    feeFactor f = (fin 1).sub (f.div (fin 100)) := by
  have ht : f.truthy = true := by
    cases f with
    | fin q =>
      have hq : 0 < q := by simpa [gt, lt] using h
      simp [truthy, ne_of_gt hq]
    | posInf => rfl
    | negInf => rfl
    | nan => simp [gt, lt] at h
  simp [feeFactor, ht, h]

theorem orZero_fin (p : ℚ) : (fin p).orZero = fin p := by
  by_cases h : p = 0 <;> simp [orZero, truthy, h]

theorem orZero_of_ne_nan (x : JSNum) (h : x ≠ nan) : x.orZero = x := by
  cases x with
  | fin q => exact orZero_fin q
  | posInf => rfl
  | negInf => rfl
  | nan => exact absurd rfl h

theorem mathRound_zero : mathRound (fin 0) = fin 0 := by
  simp [mathRound]
  norm_num

theorem record_of_failed (o : FetchOutcome) (h : o.failed = true) : o.record = none := by
  cases o <;> simp [FetchOutcome.failed] at h <;> rfl

theorem fetchPrice_calcResult (fmt : JSNum → String) (retry : Nat) (o : FetchOutcome)
    (pg : Page) : (fetchPrice fmt retry o pg).2.calcResult = pg.calcResult := by
  cases h : o.failed
  · obtain ⟨d, rfl⟩ := failed_eq_false o h
    rw [fetchPrice_ok_page]
  · by_cases hr : retry < 2
    · rw [fetchPrice_failed_lt fmt retry o pg h hr]
    · rw [fetchPrice_failed_ge_page fmt retry o pg h (by omega)]

theorem eventLoop_calcResult (fmt : JSNum → String) (net : Nat → FetchOutcome) (fuel : Nat) :
    ∀ pg : Page, (eventLoop fmt net fuel pg).calcResult = pg.calcResult := by
  induction fuel with
  | zero => intro pg; rfl
  | succ n ih =>
    intro pg
    cases ht : pg.timers with
    | nil => simp [eventLoop, ht]
    | cons t rest => simp [eventLoop, ht, ih, fetchPrice_calcResult]

theorem parseFloatOrZero_Infinity : parseFloatOrZero "Infinity" = posInf := rfl

theorem parseFloat_abc : parseFloat "abc" = nan := rfl

theorem feeFactor_of_le (f : JSNum) (h : f.le (fin 0) = true) : feeFactor f = fin 1 := by
  cases f with
  | fin q =>
    have hq : ¬ 0 < q := by simpa [le] using h
    simp [feeFactor, gt, lt, hq]
  | posInf => simp [le] at h
  | negInf => simp [feeFactor, gt, lt]
  | nan => simp [le] at h

/-! ### Values of the builtins on the strings used below -/

theorem parseFloat_zero : parseFloat "0" = fin 0 := by
  have h : parseFloat "0" = binary64 (decimalValue ['0'] [] 0) := rfl
  have hv : decimalValue ['0'] [] 0 = 0 := by simp [decimalValue, digitsValue]
  rw [h, hv, binary64_zero]

theorem parseFloatOrZero_empty : parseFloatOrZero "" = fin 0 := by
  simp [parseFloatOrZero, parseFloat_zero]

theorem parseFloatOrZero_0 : parseFloatOrZero "0" = fin 0 := by
  have h : parseFloatOrZero "0" = parseFloat "0" := rfl
  rw [h, parseFloat_zero]

theorem parseFloatOrZero_10 : parseFloatOrZero "10" = fin 10 := by
  have h : parseFloatOrZero "10" = binary64 (decimalValue ['1', '0'] [] 0) := rfl
  have hv : decimalValue ['1', '0'] [] 0 = 10 := by simp [decimalValue, digitsValue]
  rw [h, hv, binary64_10]

theorem parseFloatOrZero_7 : parseFloatOrZero "7" = fin 7 := by
  have h : parseFloatOrZero "7" = binary64 (decimalValue ['7'] [] 0) := rfl
  have hv : decimalValue ['7'] [] 0 = 7 := by simp [decimalValue, digitsValue]
  rw [h, hv, binary64_7]

theorem parseFloatOrZero_5 : parseFloatOrZero "5" = fin 5 := by
  have h : parseFloatOrZero "5" = binary64 (decimalValue ['5'] [] 0) := rfl
  have hv : decimalValue ['5'] [] 0 = 5 := by simp [decimalValue, digitsValue]
  rw [h, hv, binary64_5]

theorem parseFloatOrZero_200 : parseFloatOrZero "200" = fin 200 := by
  have h : parseFloatOrZero "200" = binary64 (decimalValue ['2', '0', '0'] [] 0) := rfl
  have hv : decimalValue ['2', '0', '0'] [] 0 = 200 := by simp [decimalValue, digitsValue]
  rw [h, hv, binary64_200]

theorem parseFloat_neg5_le : (parseFloat "-5").le (fin 0) = true := by
  have h : parseFloat "-5" = (binary64 (decimalValue ['5'] [] 0)).neg := rfl
  have hv : decimalValue ['5'] [] 0 = 5 := by simp [decimalValue, digitsValue]
  rw [h, hv, binary64_5]
  simp [JSNum.neg, le]

theorem toNumber_24 : toNumber "24" = fin 24 := by
  have h : toNumber "24" = binary64 (decimalValue ['2', '4'] [] 0) := rfl
  have hv : decimalValue ['2', '4'] [] 0 = 24 := by simp [decimalValue, digitsValue]
  rw [h, hv, binary64_24]

theorem toNumber_18 : toNumber "18" = fin 18 := by
  have h : toNumber "18" = binary64 (decimalValue ['1', '8'] [] 0) := rfl
  have hv : decimalValue ['1', '8'] [] 0 = 18 := by simp [decimalValue, digitsValue]
  rw [h, hv, binary64_18]

theorem toNumber_22 : toNumber "22" = fin 22 := by
  have h : toNumber "22" = binary64 (decimalValue ['2', '2'] [] 0) := rfl
  have hv : decimalValue ['2', '2'] [] 0 = 22 := by simp [decimalValue, digitsValue]
  rw [h, hv, binary64_22]

/-! ### Every finite number the script handles is a binary64 value -/

theorem scanUnsigned_value {cs : List Char} {p : JSNum × List Char}
    (h : scanUnsigned cs = some p) (f : ℚ) (hf : p.1 = fin f) : ∃ q : ℚ, binary64 q = fin f := by
  unfold scanUnsigned at h
  split_ifs at h with h1
  · cases h
    simp at hf
  · simp only at h
    split at h
    · split_ifs at h
      cases h
      exact ⟨_, hf⟩
    · split_ifs at h
      cases h
      exact ⟨_, hf⟩

theorem scanDecimal_value {cs : List Char} {p : JSNum × List Char}
    (h : scanDecimal cs = some p) (f : ℚ) (hf : p.1 = fin f) : ∃ q : ℚ, binary64 q = fin f := by
  unfold scanDecimal at h
  split at h
  · exact scanUnsigned_value h f hf
  · obtain ⟨a, ha, hap⟩ := Option.map_eq_some'.mp h
    subst hap
    have hneg : a.1 = fin (-f) := by
      cases hv : a.1 with
      | fin x =>
        simp only [hv, JSNum.neg] at hf
        injection hf with hx
        rw [← hx, neg_neg]
      | posInf => simp [hv, JSNum.neg] at hf
      | negInf => simp [hv, JSNum.neg] at hf
      | nan => simp [hv, JSNum.neg] at hf
    obtain ⟨q, hq⟩ := scanUnsigned_value ha (-f) hneg
    refine ⟨-q, ?_⟩
    rw [binary64_neg, hq]
    simp [JSNum.neg]
  · exact scanUnsigned_value h f hf

theorem parseFloat_value {s : String} {f : ℚ} (h : parseFloat s = fin f) :
    ∃ q : ℚ, binary64 q = fin f := by
  unfold parseFloat at h
  split at h
  · next p hp => exact scanDecimal_value hp f h
  · cases h

theorem parseFloatOrZero_value {s : String} {f : ℚ} (h : parseFloatOrZero s = fin f) :
    ∃ q : ℚ, binary64 q = fin f := by
  unfold parseFloatOrZero at h
  split_ifs at h <;> exact parseFloat_value h

theorem toNumber_value {s : String} {f : ℚ} (h : toNumber s = fin f) :
    ∃ q : ℚ, binary64 q = fin f := by
  unfold toNumber at h
  simp only at h
  split_ifs at h
  · exact ⟨0, by rw [binary64_zero, ← h]⟩
  · split at h
    · exact ⟨_, h⟩
    · split at h
      · next v hv => exact scanDecimal_value hv f h
      · cases h

/-! ### Signs and finiteness of the factors -/

theorem conditionFactor_bounds (c : String) :
    ∃ cf : ℚ, conditionFactor c = fin cf ∧ 0 ≤ cf ∧ cf ≤ 1 := by
  unfold conditionFactor
  split_ifs
  · exact ⟨_, binary64_095, by norm_num, by norm_num⟩
  · exact ⟨1, rfl, by norm_num, by norm_num⟩

theorem feeFactor_bounds (f : JSNum) (h : f.le (fin 100) = true) :
    ∃ ff : ℚ, feeFactor f = fin ff ∧ 0 ≤ ff ∧ ff ≤ 1 := by
  cases f with
  | fin q =>
    have hq : q ≤ 100 := by simpa [le] using h
    by_cases hpos : 0 < q
    · obtain ⟨r1, hr1, h0, h1⟩ := binary64_le_of_le binary64_one
        (x := q / 100) (by positivity) (by rw [div_le_one (by norm_num)]; exact hq)
      obtain ⟨r2, hr2, h20, h21⟩ := binary64_le_of_le binary64_one
        (x := 1 - r1) (by linarith) (by linarith)
      refine ⟨r2, ?_, h20, h21⟩
      have ht : (fin q).truthy = true := by simp [truthy, ne_of_gt hpos]
      have hg : (fin q).gt (fin 0) = true := by simpa [gt, lt] using hpos
      simp only [feeFactor, ht, hg, Bool.and_self, if_true]
      rw [div_fin _ _ (by norm_num), hr1, sub_fin, hr2]
    · exact ⟨1, by simp [feeFactor, gt, lt, hpos], by norm_num, by norm_num⟩
  | posInf => simp [le] at h
  | negInf => exact ⟨1, by simp [feeFactor, gt, lt], by norm_num, by norm_num⟩
  | nan => simp [le] at h

theorem feeFactor_fin_of_value {f : ℚ} (hv : ∃ q : ℚ, binary64 q = fin f) :
    ∃ ff : ℚ, feeFactor (fin f) = fin ff := by
  obtain ⟨q, hq⟩ := hv
  by_cases hpos : 0 < f
  · obtain ⟨r1, hr1, h0, h1⟩ := binary64_le_of_le hq
      (x := f / 100) (by positivity) (by linarith)
    obtain ⟨r2, hr2⟩ : ∃ r2 : ℚ, binary64 (1 - r1) = fin r2 := by
      by_cases hle : r1 ≤ 1
      · obtain ⟨r2, hr2, -, -⟩ := binary64_le_of_le binary64_one
          (x := 1 - r1) (by linarith) (by linarith)
        exact ⟨r2, hr2⟩
      · obtain ⟨r2, hr2, -⟩ := binary64_abs_le hr1 (x := 1 - r1)
          (by rw [abs_of_nonpos (by linarith), abs_of_nonneg h0]; linarith)
        exact ⟨r2, hr2⟩
    refine ⟨r2, ?_⟩
    have ht : (fin f).truthy = true := by simp [truthy, ne_of_gt hpos]
    have hg : (fin f).gt (fin 0) = true := by simpa [gt, lt] using hpos
    simp only [feeFactor, ht, hg, Bool.and_self, if_true]
    rw [div_fin _ _ (by norm_num), hr1, sub_fin, hr2]
  · exact ⟨1, by simp [feeFactor, gt, lt, hpos]⟩

theorem div_24_fin_of_value {k : ℚ} (hv : ∃ q : ℚ, binary64 q = fin k) :
    ∃ r : ℚ, (fin k).div (fin 24) = fin r := by
  obtain ⟨q, hq⟩ := hv
  obtain ⟨r, hr, -⟩ := binary64_abs_le hq (x := k / 24) (by
    rw [abs_div]
    exact div_le_self (abs_nonneg k) (by norm_num))
  exact ⟨r, by rw [div_fin _ _ (by norm_num), hr]⟩

theorem mul_zero_fin (r : ℚ) : (fin 0).mul (fin r) = fin 0 := by
  rw [mul_fin, zero_mul, binary64_zero]

theorem fin_mul_zero (r : ℚ) : (fin r).mul (fin 0) = fin 0 := by
  rw [mul_fin, mul_zero, binary64_zero]

theorem le_binary64_of_nonneg {q : ℚ} (hq : 0 ≤ q) : (fin 0).le (binary64 q) = true := by
  rcases binary64_nonneg hq with h | ⟨r, h, hr⟩
  · rw [h]; rfl
  · rw [h]; simpa [le] using hr

theorem mul_nonneg_or_nan (a b : JSNum) (ha : a = nan ∨ (fin 0).le a = true)
    (hb : b = nan ∨ (fin 0).le b = true) :
    a.mul b = nan ∨ (fin 0).le (a.mul b) = true := by
  cases a with
  | nan => left; cases b <;> rfl
  | negInf => simp [le] at ha
  | posInf =>
    cases b with
    | nan => left; rfl
    | negInf => simp [le] at hb
    | posInf => right; rfl
    | fin y =>
      have hy : 0 ≤ y := by simpa [le] using hb
      rcases eq_or_lt_of_le hy with h | h
      · left; simp [JSNum.mul, ← h]
      · right; simp [JSNum.mul, ne_of_gt h, h, infOfSign, le]
  | fin x =>
    have hx : 0 ≤ x := by simpa [le] using ha
    cases b with
    | nan => left; rfl
    | negInf => simp [le] at hb
    | posInf =>
      rcases eq_or_lt_of_le hx with h | h
      · left; simp [JSNum.mul, ← h]
      · right; simp [JSNum.mul, ne_of_gt h, h, infOfSign, le]
    | fin y =>
      have hy : 0 ≤ y := by simpa [le] using hb
      right
      rw [mul_fin]
      exact le_binary64_of_nonneg (mul_nonneg hx hy)

theorem mul_eq_fin {a b : JSNum} {g : ℚ} (h : a.mul b = fin g) :
    ∃ x y : ℚ, a = fin x ∧ b = fin y ∧ binary64 (x * y) = fin g := by
  cases a <;> cases b <;> simp only [JSNum.mul] at h
  · exact ⟨_, _, rfl, rfl, h⟩
  all_goals first
    | exact JSNum.noConfusion h
    | (split_ifs at h; simp [infOfSign] at h; split_ifs at h)

theorem div_24_nonneg (k : JSNum) (hk : k.gt (fin 0) = true) :
    (fin 0).le (k.div (fin 24)) = true := by
  cases k with
  | fin q =>
    have hq : 0 < q := by simpa [gt, lt] using hk
    rw [div_fin _ _ (by norm_num)]
    exact le_binary64_of_nonneg (by positivity)
  | posInf => simp [JSNum.div, infOfSign, le]
  | negInf => simp [gt, lt] at hk
  | nan => simp [gt, lt] at hk

theorem orZero_nonneg (p : JSNum) (hp : (fin 0).le p = true) : (fin 0).le p.orZero = true := by
  unfold orZero
  split_ifs
  · exact hp
  · simp [le]

/-- The object that `handleCalcSubmit` hands to `showCalcResult` for given parsed values. -/
theorem handleCalcSubmit_values (fmt : JSNum → String) (form : CalcForm) (o : FetchOutcome)
    (pg : Page) (w k f p : JSNum) (hw : parseFloatOrZero form.weight = w)
    (hk : toNumber form.karat = k) (hf : parseFloatOrZero form.fee = f)
    (hp : (o.record.getD { pricePerGram := fin 0 }).pricePerGram.orZero = p)
    (hacc : w.gt (fin 0) = true) :
    (handleCalcSubmit fmt form o pg).1 = .returned (.estimate
      { weight := w, karat := k, condition := form.condition, feeInput := f,
        pricePerGram := p, gross := (w.mul p).mul (k.div (fin 24)),
        net := (((w.mul p).mul (k.div (fin 24))).mul (conditionFactor form.condition)).mul
          (feeFactor f) }) := by
  subst hw hk hf hp
  rw [handleCalcSubmit_accepted fmt form o pg hacc]

/-! ## The stated properties -/

/-- C1 fails at weight 7, karat 22 and price 1000000: the code returns the binary64 value
`6889843370666666 * 2^-30` (written in lowest terms below), which is not the exact product
`7 * 1000000 * (22 / 24) = 19250000 / 3`. -/
theorem gross_is_not_the_exact_product :
    parseFloatOrZero "7" = fin 7 ∧ toNumber "22" = fin 22 ∧
      ∃ e : Estimate,
        (handleCalcSubmit idFormat ⟨"7", "22", "normal", "0"⟩
          (.ok { pricePerGram := fin 1000000 }) freshPage).1 = .returned (.estimate e) ∧
        e.pricePerGram = fin 1000000 ∧
        e.gross = fin (3444921685333333 / 536870912) ∧
        e.gross ≠ fin (7 * 1000000 * (22 / 24)) := by
  have hres := handleCalcSubmit_values idFormat ⟨"7", "22", "normal", "0"⟩
    (.ok { pricePerGram := fin 1000000 }) freshPage (fin 7) (fin 22) (fin 0) (fin 1000000)
    parseFloatOrZero_7 toNumber_22 parseFloatOrZero_0 (orZero_fin _) (by simp [gt, lt])
  have hgross : ((fin 7).mul (fin 1000000)).mul ((fin 22).div (fin 24)) =
      fin (3444921685333333 / 536870912) := by
    rw [mul_7_1000000, div_22_24, mul_7000000_c]
  refine ⟨parseFloatOrZero_7, toNumber_22, _, hres, rfl, hgross, ?_⟩
  show ((fin 7).mul (fin 1000000)).mul ((fin 22).div (fin 24)) ≠ _
  rw [hgross]
  intro h
  injection h with h
  norm_num at h

/-- C1, amended: for every finite weight `w > 0`, karat `k` and fetched price `p`,
`handleCalcSubmit` accepts the submission and its gross amount is the binary64 product, in
the order of the code, of the rounded `w * p` and the rounded `k / 24`; it is the exact
`w * p * (k / 24)` whenever `w * p`, `k / 24` and their product are binary64 values. -/
theorem gross_is_rounded_product (fmt : JSNum → String) (form : CalcForm) (pg : Page)
    (w k p : ℚ) (hw : parseFloatOrZero form.weight = fin w) (hk : toNumber form.karat = fin k)
    (hpos : 0 < w) :
    ∃ e : Estimate,
      (handleCalcSubmit fmt form (.ok { pricePerGram := fin p }) pg).1 = .returned (.estimate e) ∧
      e.weight = fin w ∧ e.karat = fin k ∧ e.pricePerGram = fin p ∧
      e.gross = (binary64 (w * p)).mul (binary64 (k / 24)) ∧
      (binary64 (w * p) = fin (w * p) → binary64 (k / 24) = fin (k / 24) →
        binary64 (w * p * (k / 24)) = fin (w * p * (k / 24)) →
        e.gross = fin (w * p * (k / 24))) := by
  have hres := handleCalcSubmit_values fmt form (.ok { pricePerGram := fin p }) pg
    (fin w) (fin k) (parseFloatOrZero form.fee) (fin p) hw hk rfl (orZero_fin _)
    (by simpa [gt, lt] using hpos)
  have hgross : ((fin w).mul (fin p)).mul ((fin k).div (fin 24)) =
      (binary64 (w * p)).mul (binary64 (k / 24)) := by
    rw [mul_fin, div_fin _ _ (by norm_num)]
  refine ⟨_, hres, rfl, rfl, rfl, hgross, ?_⟩
  intro h1 h2 h3
  show ((fin w).mul (fin p)).mul ((fin k).div (fin 24)) = _
  rw [hgross, h1, h2, mul_fin, h3]

/-- C1 amended, the two scenarios: weight 10, karat 24, price 1000000 gives gross 10000000,
and weight 10, karat 18, price 1000000 gives gross 7500000. -/
theorem gross_is_rounded_product_witness :
    (∃ e : Estimate,
      (handleCalcSubmit idFormat ⟨"10", "24", "normal", "0"⟩
        (.ok { pricePerGram := fin 1000000 }) freshPage).1 = .returned (.estimate e) ∧
      e.weight = fin 10 ∧ e.karat = fin 24 ∧ e.pricePerGram = fin 1000000 ∧
      e.gross = fin 10000000) ∧
    (∃ e : Estimate,
      (handleCalcSubmit idFormat ⟨"10", "18", "rusak", "5"⟩
        (.ok { pricePerGram := fin 1000000 }) freshPage).1 = .returned (.estimate e) ∧
      e.weight = fin 10 ∧ e.karat = fin 18 ∧ e.pricePerGram = fin 1000000 ∧
      e.gross = fin 7500000) := by
  constructor
  · obtain ⟨e, he, hw, hk, hp, hg, -⟩ :=
      gross_is_rounded_product idFormat ⟨"10", "24", "normal", "0"⟩ freshPage
        10 24 1000000 parseFloatOrZero_10 toNumber_24 (by norm_num)
    refine ⟨e, he, hw, hk, hp, ?_⟩
    rw [hg, ← mul_fin, ← div_fin _ _ (by norm_num), mul_10_1000000, div_24_24, mul_10000000_1]
  · obtain ⟨e, he, hw, hk, hp, hg, -⟩ :=
      gross_is_rounded_product idFormat ⟨"10", "18", "rusak", "5"⟩ freshPage
        10 18 1000000 parseFloatOrZero_10 toNumber_18 (by norm_num)
    refine ⟨e, he, hw, hk, hp, ?_⟩
    rw [hg, ← mul_fin, ← div_fin _ _ (by norm_num), mul_10_1000000, div_18_24, mul_10000000_34]

/-- C2: for every accepted submission (parsed weight `> 0`), `handleCalcSubmit` computes
`net = gross * conditionFactor * feeFactor`, where the condition factor is `0.95` (the
binary64 literal, `4278419646001971 / 2^52`) for the condition `rusak` (damaged) and `1` for
any other, and the fee factor is `1` for a fee `<= 0` and `1 - fee / 100` for a fee `> 0`. -/
theorem net_is_gross_condition_fee (fmt : JSNum → String) (form : CalcForm) (o : FetchOutcome)
    (pg : Page) (hacc : (parseFloatOrZero form.weight).gt (fin 0) = true) :
    ∃ e : Estimate,
      (handleCalcSubmit fmt form o pg).1 = .returned (.estimate e) ∧
      e.condition = form.condition ∧ e.feeInput = parseFloatOrZero form.fee ∧
      e.net = (e.gross.mul (conditionFactor e.condition)).mul (feeFactor e.feeInput) ∧
      conditionFactor "rusak" = binary64 (95 / 100) ∧
      binary64 (95 / 100) = fin (4278419646001971 / 4503599627370496) ∧
      (∀ c : String, c ≠ "rusak" → conditionFactor c = fin 1) ∧
      (∀ f : JSNum, f.le (fin 0) = true → feeFactor f = fin 1) ∧
      (∀ f : JSNum, f.gt (fin 0) = true → feeFactor f = (fin 1).sub (f.div (fin 100))) := by
  rw [handleCalcSubmit_accepted fmt form o pg hacc]
  refine ⟨_, rfl, rfl, rfl, rfl, ?_, binary64_095, ?_, feeFactor_of_le, feeFactor_of_gt⟩
  · simp [conditionFactor]
  · intro c hc
    simp [conditionFactor, hc]

/-- C2, the scenario: weight 10, karat 18, condition damaged, fee 5, price 1000000 gives
gross 7500000 and net 6768750. -/
theorem net_is_gross_condition_fee_witness :
    ∃ e : Estimate,
      (handleCalcSubmit idFormat ⟨"10", "18", "rusak", "5"⟩
        (.ok { pricePerGram := fin 1000000 }) freshPage).1 = .returned (.estimate e) ∧
      e.gross = fin 7500000 ∧ e.net = fin 6768750 := by
  have hacc : (parseFloatOrZero (CalcForm.mk "10" "18" "rusak" "5").weight).gt (fin 0) = true := by
    show (parseFloatOrZero "10").gt (fin 0) = true
    rw [parseFloatOrZero_10]; simp [gt, lt]
  obtain ⟨e, he, hc, hf, hnet, hrusak, hlit, -, -, hfee⟩ :=
    net_is_gross_condition_fee idFormat ⟨"10", "18", "rusak", "5"⟩
      (.ok { pricePerGram := fin 1000000 }) freshPage hacc
  have hg : e.gross = fin 7500000 := by
    have he2 := he
    rw [handleCalcSubmit_values idFormat ⟨"10", "18", "rusak", "5"⟩
      (.ok { pricePerGram := fin 1000000 }) freshPage (fin 10) (fin 18) (fin 5) (fin 1000000)
      parseFloatOrZero_10 toNumber_18 parseFloatOrZero_5 (orZero_fin _)
      (by simp [gt, lt])] at he2
    injection he2 with h1
    injection h1 with h2
    subst h2
    show ((fin 10).mul (fin 1000000)).mul ((fin 18).div (fin 24)) = _
    rw [mul_10_1000000, div_18_24, mul_10000000_34]
  refine ⟨e, he, hg, ?_⟩
  rw [hnet, hg, hc, hf]
  show ((fin 7500000).mul (conditionFactor "rusak")).mul (feeFactor (parseFloatOrZero "5")) = _
  rw [hrusak, hlit, parseFloatOrZero_5, hfee (fin 5) (by simp [gt, lt]), div_5_100,
    sub_1_c05, mul_7500000_c95, mul_7125000_c95]

/-- C3: when the weight field is empty, non-numeric (`parseFloat` gives `NaN`) or parses
to a value `<= 0`, `handleCalcSubmit` hands the validation error to `showCalcResult` and
does nothing else: only the result container changes, so no network read is issued, no
timer is created, the price surface is untouched, and no estimate is computed. -/
theorem invalid_weight_short_circuits (fmt : JSNum → String) (form : CalcForm)
    (o : FetchOutcome) (pg : Page)
    (h : form.weight = "" ∨ parseFloat form.weight = nan ∨
      (parseFloat form.weight).le (fin 0) = true) :
    handleCalcSubmit fmt form o pg =
        (.returned (.error weightError), { pg with calcResult := .errorBox weightError }) ∧
      (handleCalcSubmit fmt form o pg).2.log = pg.log ∧
      (handleCalcSubmit fmt form o pg).2.timers = pg.timers ∧
      (handleCalcSubmit fmt form o pg).2.goldPrice = pg.goldPrice := by
  have hgt : (parseFloatOrZero form.weight).gt (fin 0) = false := by
    by_cases he : form.weight = ""
    · rw [he, parseFloatOrZero_empty]; simp [gt, lt]
    · have hp : parseFloatOrZero form.weight = parseFloat form.weight := by
        simp [parseFloatOrZero, he]
      rw [hp]
      rcases h with h | h | h
      · exact absurd h he
      · rw [h]; rfl
      · have hg := guard_eq_not_gt (parseFloat form.weight)
        rw [h] at hg
        simpa using hg
  rw [handleCalcSubmit_rejected fmt form o pg hgt]
  exact ⟨rfl, rfl, rfl, rfl⟩

/-- C3 at an empty, a non-numeric and a negative weight field. -/
theorem invalid_weight_short_circuits_witness :
    (handleCalcSubmit idFormat ⟨"", "24", "normal", "0"⟩ .networkError freshPage).1 =
        .returned (.error weightError) ∧
      (handleCalcSubmit idFormat ⟨"abc", "24", "normal", "0"⟩ .networkError freshPage).2.log
        = [] ∧
      (handleCalcSubmit idFormat ⟨"-5", "24", "normal", "0"⟩ .networkError freshPage).2.timers
        = [] := by
  refine ⟨?_, ?_, ?_⟩
  · exact congrArg Prod.fst (invalid_weight_short_circuits idFormat ⟨"", "24", "normal", "0"⟩
      .networkError freshPage (Or.inl rfl)).1
  · exact (invalid_weight_short_circuits idFormat ⟨"abc", "24", "normal", "0"⟩
      .networkError freshPage (Or.inr (Or.inl parseFloat_abc))).2.1
  · exact (invalid_weight_short_circuits idFormat ⟨"-5", "24", "normal", "0"⟩
      .networkError freshPage (Or.inr (Or.inr parseFloat_neg5_le))).2.2.1

/-- C4 fails at the weight field `Infinity`: the parsed weight is `+Infinity`, not a
positive finite number, yet the submission is accepted and an estimate with an infinite
gross amount is computed. -/
theorem infinite_weight_is_accepted :
    parseFloatOrZero "Infinity" = posInf ∧
      (¬ ∃ q : ℚ, parseFloatOrZero "Infinity" = fin q ∧ 0 < q) ∧
      (handleCalcSubmit idFormat ⟨"Infinity", "24", "normal", "0"⟩
        (.ok { pricePerGram := fin 1000000 }) freshPage).1 ≠ .returned (.error weightError) ∧
      ∃ e : Estimate,
        (handleCalcSubmit idFormat ⟨"Infinity", "24", "normal", "0"⟩
          (.ok { pricePerGram := fin 1000000 }) freshPage).1 = .returned (.estimate e) ∧
        e.weight = posInf ∧ e.gross = posInf := by
  have hacc : (parseFloatOrZero (CalcForm.mk "Infinity" "24" "normal" "0").weight).gt (fin 0)
      = true := rfl
  have hres := handleCalcSubmit_accepted idFormat ⟨"Infinity", "24", "normal", "0"⟩
    (.ok { pricePerGram := fin 1000000 }) freshPage hacc
  refine ⟨rfl, ?_, ?_, ?_⟩
  · rintro ⟨q, hq, -⟩
    rw [parseFloatOrZero_Infinity] at hq
    exact JSNum.noConfusion hq
  · rw [hres]
    intro hcontra
    injection hcontra with h1
    exact CalcResult.noConfusion h1
  · rw [hres]
    refine ⟨_, rfl, rfl, ?_⟩
    show ((parseFloatOrZero "Infinity").mul (orZero (fin 1000000))).mul
      ((toNumber "24").div (fin 24)) = posInf
    rw [parseFloatOrZero_Infinity, toNumber_24, orZero_fin, div_24_24]
    norm_num [JSNum.mul, infOfSign]

/-- C4, amended: `handleCalcSubmit` rejects a submission exactly when the parsed weight is
not `> 0`, that is when it is `NaN`, `-Infinity` or a finite number `<= 0`; it accepts a
positive finite weight and also `+Infinity`.  A rejected submission only fills the result
container with the error; an accepted one produces an estimate. -/
theorem weight_rejected_iff_not_gt_zero (fmt : JSNum → String) (form : CalcForm)
    (o : FetchOutcome) (pg : Page) :
    ((handleCalcSubmit fmt form o pg).1 = .returned (.error weightError) ↔
        (parseFloatOrZero form.weight).gt (fin 0) = false) ∧
      ((parseFloatOrZero form.weight).gt (fin 0) = true ↔
        parseFloatOrZero form.weight = posInf ∨
          ∃ q : ℚ, parseFloatOrZero form.weight = fin q ∧ 0 < q) ∧
      ((parseFloatOrZero form.weight).gt (fin 0) = false →
        handleCalcSubmit fmt form o pg =
          (.returned (.error weightError), { pg with calcResult := .errorBox weightError })) ∧
      ((parseFloatOrZero form.weight).gt (fin 0) = true →
        ∃ e : Estimate, (handleCalcSubmit fmt form o pg).1 = .returned (.estimate e)) := by
  refine ⟨?_, gt_zero_iff _, handleCalcSubmit_rejected fmt form o pg, ?_⟩
  · constructor
    · intro hres
      cases hgt : (parseFloatOrZero form.weight).gt (fin 0)
      · rfl
      · rw [handleCalcSubmit_accepted fmt form o pg hgt] at hres
        injection hres with h1
        exact CalcResult.noConfusion h1
    · intro hgt
      rw [handleCalcSubmit_rejected fmt form o pg hgt]
  · intro hgt
    rw [handleCalcSubmit_accepted fmt form o pg hgt]
    exact ⟨_, rfl⟩

/-- C4 amended, at the weight fields `10` (accepted) and `0` (rejected). -/
theorem weight_rejected_iff_not_gt_zero_witness :
    (∃ e : Estimate,
      (handleCalcSubmit idFormat ⟨"10", "24", "normal", "0"⟩ .notOk freshPage).1 =
        .returned (.estimate e)) ∧
      handleCalcSubmit idFormat ⟨"0", "24", "normal", "0"⟩ .notOk freshPage =
        (.returned (.error weightError),
          { freshPage with calcResult := .errorBox weightError }) := by
  constructor
  · refine (weight_rejected_iff_not_gt_zero idFormat ⟨"10", "24", "normal", "0"⟩ .notOk
      freshPage).2.2.2 ?_
    show (parseFloatOrZero "10").gt (fin 0) = true
    rw [parseFloatOrZero_10]; simp [gt, lt]
  · refine (weight_rejected_iff_not_gt_zero idFormat ⟨"0", "24", "normal", "0"⟩ .notOk
      freshPage).2.2.1 ?_
    show (parseFloatOrZero "0").gt (fin 0) = false
    rw [parseFloatOrZero_0]; simp [gt, lt]

/-- C5: a chain started by `fetchPrice(0)` whose attempts 0 and 1 fail and whose attempt 2
succeeds with record `r` runs exactly the attempts 0, 1, 2 (the retries scheduled after
1000 ms and 2000 ms) and ends with the call `updatePriceUI(r.pricePerGram)`, which puts the
formatted price on the price surface when that element exists; the assignment of the
static failure message is never executed, nothing is scheduled after attempt 2 and no timer
stays pending, however long the event loop runs. -/
theorem chain_succeeds_on_third_attempt (fmt : JSNum → String) (net : Nat → FetchOutcome)
    (fuel : Nat) (pg : Page) (r : PriceRecord) (ht : pg.timers = [])
    (h0 : (net 0).failed = true) (h1 : (net 1).failed = true) (h2 : net 2 = .ok r)
    (hfuel : 2 ≤ fuel) :
    (runChain fmt net fuel pg).log =
        pg.log ++ [Event.fetch 0, Event.warn, Event.setTimeout { delayMs := 1000, retry := 1 },
          Event.fetch 1, Event.warn, Event.setTimeout { delayMs := 2000, retry := 2 },
          Event.fetch 2, Event.updatePriceUI r.pricePerGram] ∧
      (runChain fmt net fuel pg).goldPrice =
        pg.goldPrice.map (fun _ => "Rp " ++ fmt r.pricePerGram) ∧
      (runChain fmt net fuel pg).timers = [] := by
  obtain ⟨n, rfl⟩ : ∃ n, fuel = n + 2 := ⟨fuel - 2, by omega⟩
  rw [chain_two_failures fmt net n pg ht h0 h1, h2, fetchPrice_ok_page,
    eventLoop_idle _ _ _ _ (by simpa using ht)]
  simp [ht]

/-- C5 on a fresh page with the outcomes not-ok, network error, then a record with price
1000000. -/
theorem chain_succeeds_on_third_attempt_witness :
    (runChain idFormat
        (fun i => if i = 0 then .notOk else if i = 1 then .networkError
          else .ok { pricePerGram := fin 1000000 }) 2 freshPage).log =
        [Event.fetch 0, Event.warn, Event.setTimeout { delayMs := 1000, retry := 1 },
          Event.fetch 1, Event.warn, Event.setTimeout { delayMs := 2000, retry := 2 },
          Event.fetch 2, Event.updatePriceUI (fin 1000000)] ∧
      (runChain idFormat
        (fun i => if i = 0 then .notOk else if i = 1 then .networkError
          else .ok { pricePerGram := fin 1000000 }) 2 freshPage).goldPrice =
        some ("Rp " ++ idFormat (fin 1000000)) ∧
      (runChain idFormat
        (fun i => if i = 0 then .notOk else if i = 1 then .networkError
          else .ok { pricePerGram := fin 1000000 }) 2 freshPage).timers = [] :=
  chain_succeeds_on_third_attempt idFormat
    (fun i => if i = 0 then .notOk else if i = 1 then .networkError
      else .ok { pricePerGram := fin 1000000 }) 2 freshPage { pricePerGram := fin 1000000 }
    rfl rfl rfl rfl (le_refl 2)

/-- C6: when every attempt of a chain started by `fetchPrice(0)` fails, the chain makes
exactly the three attempts with retry counters 0, 1, 2 and leaves no timer pending; on a
page that has the price surface it then assigns the static message to it, as the last step.
Whatever the outcomes of the attempts and however long the event loop runs, a chain makes
at most three attempts. -/
theorem chain_all_attempts_fail (fmt : JSNum → String) (net : Nat → FetchOutcome)
    (fuel : Nat) (pg : Page) (ht : pg.timers = []) (hall : ∀ i, (net i).failed = true)
    (hfuel : 2 ≤ fuel) :
    attempts (runChain fmt net fuel pg).log = attempts pg.log ++ [0, 1, 2] ∧
      (runChain fmt net fuel pg).timers = [] ∧
      (∀ text, pg.goldPrice = some text →
        (runChain fmt net fuel pg).goldPrice = some failMessage ∧
        (runChain fmt net fuel pg).log =
          pg.log ++ [Event.fetch 0, Event.warn, Event.setTimeout { delayMs := 1000, retry := 1 },
            Event.fetch 1, Event.warn, Event.setTimeout { delayMs := 2000, retry := 2 },
            Event.fetch 2, Event.warn, Event.fallback]) ∧
      (∀ (net1 : Nat → FetchOutcome) (fuel1 : Nat),
        (attempts (runChain fmt net1 fuel1 pg).log).length ≤ (attempts pg.log).length + 3) := by
  obtain ⟨n, rfl⟩ : ∃ n, fuel = n + 2 := ⟨fuel - 2, by omega⟩
  rw [chain_two_failures fmt net n pg ht (hall 0) (hall 1),
    fetchPrice_failed_ge_page _ _ _ _ (hall 2) (le_refl 2),
    eventLoop_idle _ _ _ _ (by simpa using ht)]
  refine ⟨?_, by simpa using ht, ?_, fun net1 fuel1 => chain_attempts_le fmt net1 fuel1 pg ht⟩
  · cases pg.goldPrice <;> simp [attempts_append, attempts]
  · intro text htext
    simp [htext]

/-- C6 on a fresh page when every read is a network error. -/
theorem chain_all_attempts_fail_witness :
    attempts (runChain idFormat (fun _ => .networkError) 2 freshPage).log = [0, 1, 2] ∧
      (runChain idFormat (fun _ => .networkError) 2 freshPage).timers = [] ∧
      (runChain idFormat (fun _ => .networkError) 2 freshPage).goldPrice = some failMessage := by
  have h := chain_all_attempts_fail idFormat (fun _ => .networkError) 2 freshPage rfl
    (fun _ => rfl) (le_refl 2)
  exact ⟨h.1, h.2.1, (h.2.2.1 "" rfl).1⟩

/-- C7: for a retry counter `r < 2`, a failed attempt of `fetchPrice(r)` warns, schedules
exactly one timer, the one for `fetchPrice(r + 1)` with delay `1000 * (r + 1)` ms, touches
nothing else on the page, and returns no value. -/
theorem failed_attempt_schedules_retry (fmt : JSNum → String) (r : Nat) (o : FetchOutcome)
    (pg : Page) (ho : o.failed = true) (hr : r < 2) :
    fetchPrice fmt r o pg =
      (.returned none,
        { pg with
          timers := pg.timers ++ [{ delayMs := 1000 * (r + 1), retry := r + 1 }],
          log := pg.log ++ [Event.fetch r, Event.warn,
            Event.setTimeout { delayMs := 1000 * (r + 1), retry := r + 1 }] }) :=
  fetchPrice_failed_lt fmt r o pg ho hr

/-- C7 at retry counters 0 and 1: delays 1000 ms and 2000 ms. -/
theorem failed_attempt_schedules_retry_witness :
    fetchPrice idFormat 0 .networkError freshPage =
        (.returned none,
          { freshPage with
            timers := [{ delayMs := 1000, retry := 1 }],
            log := [Event.fetch 0, Event.warn,
              Event.setTimeout { delayMs := 1000, retry := 1 }] }) ∧
      fetchPrice idFormat 1 .malformedBody freshPage =
        (.returned none,
          { freshPage with
            timers := [{ delayMs := 2000, retry := 2 }],
            log := [Event.fetch 1, Event.warn,
              Event.setTimeout { delayMs := 2000, retry := 2 }] }) :=
  ⟨failed_attempt_schedules_retry idFormat 0 .networkError freshPage rfl (by decide),
    failed_attempt_schedules_retry idFormat 1 .malformedBody freshPage rfl (by decide)⟩

/-- C8 fails for `fetchPrice(2)` on a page without `#gold-price` when the read fails: the
assignment of line 53 dereferences `null` inside the `catch` block, so the call throws a
TypeError (its promise rejects) after the warning, while `updatePriceUI` on the same page is
a no-op thanks to its guard. -/
theorem terminal_failure_throws_without_surface :
    fetchPrice idFormat 2 .networkError barePage =
        (.threw .typeError, { barePage with log := [Event.fetch 2, Event.warn] }) ∧
      (updatePriceUI idFormat (fin 1000000) barePage).goldPrice = none := by
  constructor <;> rfl

/-- C9: for a submission with finite weight `w > 0`, finite karat and finite fee, the price
used by `handleCalcSubmit` is that of the record delivered by attempt 0 of its own chain
when that attempt succeeds (for a numeric `pricePerGram`), and `0` when attempt 0 fails; in
that case gross and net are `0`, and the result container keeps showing that zero estimate
whatever the later retries of the chain deliver and however long the event loop runs. -/
theorem price_is_from_first_attempt (fmt : JSNum → String) (form : CalcForm)
    (net : Nat → FetchOutcome) (fuel : Nat) (pg : Page) (w k f : ℚ)
    (hw : parseFloatOrZero form.weight = fin w) (hk : toNumber form.karat = fin k)
    (hf : parseFloatOrZero form.fee = fin f) (hpos : 0 < w) :
    (∀ r : PriceRecord, net 0 = .ok r → r.pricePerGram ≠ nan →
        ∃ e : Estimate, (handleCalcSubmit fmt form (net 0) pg).1 = .returned (.estimate e) ∧
          e.pricePerGram = r.pricePerGram) ∧
      ((net 0).failed = true →
        ∃ e : Estimate, (handleCalcSubmit fmt form (net 0) pg).1 = .returned (.estimate e) ∧
          e.pricePerGram = fin 0 ∧ e.gross = fin 0 ∧ e.net = fin 0 ∧
          (handleCalcSubmit fmt form (net 0) pg).2.timers =
            pg.timers ++ [{ delayMs := 1000, retry := 1 }] ∧
          (eventLoop fmt net fuel (handleCalcSubmit fmt form (net 0) pg).2).calcResult =
            CalcView.estimatePanel (fmt (fin 0)) (fin w) (fin k) form.condition
              (fmt (fin 0)) (fmt (fin 0))) := by
  have hacc : (parseFloatOrZero form.weight).gt (fin 0) = true := by
    rw [hw]; simpa [gt, lt] using hpos
  constructor
  · intro r hr hnan
    rw [handleCalcSubmit_accepted fmt form _ pg hacc, hr]
    exact ⟨_, rfl, by simp [FetchOutcome.record, orZero_of_ne_nan _ hnan]⟩
  · intro hfail
    have hp : (((net 0).record).getD { pricePerGram := fin 0 }).pricePerGram.orZero = fin 0 := by
      rw [record_of_failed _ hfail]; simp [orZero_fin]
    obtain ⟨kf, hkf⟩ := div_24_fin_of_value (toNumber_value hk)
    obtain ⟨cf, hcf, -, -⟩ := conditionFactor_bounds form.condition
    obtain ⟨ff, hff⟩ := feeFactor_fin_of_value (parseFloatOrZero_value hf)
    have hgross : ((fin w).mul (fin 0)).mul ((fin k).div (fin 24)) = fin 0 := by
      rw [fin_mul_zero, hkf, mul_zero_fin]
    have hnet : ((fin 0).mul (conditionFactor form.condition)).mul (feeFactor (fin f)) =
        fin 0 := by
      rw [hcf, mul_zero_fin, hff, mul_zero_fin]
    have hres := handleCalcSubmit_values fmt form (net 0) pg (fin w) (fin k) (fin f) (fin 0)
      hw hk hf hp (by simpa [gt, lt] using hpos)
    rw [hgross, hnet] at hres
    refine ⟨_, hres, rfl, rfl, rfl, ?_, ?_⟩
    · rw [handleCalcSubmit_accepted fmt form _ pg hacc,
        fetchPrice_failed_lt fmt 0 _ pg hfail (by decide)]
      simp [showCalcResult]
    · rw [eventLoop_calcResult, handleCalcSubmit_accepted fmt form _ pg hacc, hp, hw, hk, hf,
        hgross, hnet]
      simp [showCalcResult, mathRound_zero]

/-- C9 when attempt 0 is a network error and the retry delivers the price 1000000: the
estimate is computed with price 0 and stays on display after the retry has run. -/
theorem price_is_from_first_attempt_witness :
    (∃ e : Estimate,
      (handleCalcSubmit idFormat ⟨"10", "24", "normal", "0"⟩ .networkError freshPage).1 =
        .returned (.estimate e) ∧
      e.pricePerGram = fin 0 ∧ e.gross = fin 0 ∧ e.net = fin 0) ∧
      (eventLoop idFormat
        (fun i => if i = 0 then .networkError else .ok { pricePerGram := fin 1000000 }) 3
        (handleCalcSubmit idFormat ⟨"10", "24", "normal", "0"⟩ .networkError freshPage).2).calcResult
        = CalcView.estimatePanel (idFormat (fin 0)) (fin 10) (fin 24) "normal"
            (idFormat (fin 0)) (idFormat (fin 0)) := by
  obtain ⟨e, he, hp, hg, hn, -, hview⟩ :=
    (price_is_from_first_attempt idFormat ⟨"10", "24", "normal", "0"⟩
      (fun i => if i = 0 then .networkError else .ok { pricePerGram := fin 1000000 }) 3
      freshPage 10 24 0 parseFloatOrZero_10 toNumber_24 parseFloatOrZero_0 (by norm_num)).2 rfl
  exact ⟨⟨e, he, hp, hg, hn⟩, hview⟩

/-- C10 fails in two ways.  With weight 10, karat 24, fee 200 and price 1000000 the net
amount is `-10000000`.  With the accepted weight `Infinity`, karat 24, fee 0 and a failed
read (price 0) the gross and the net amount are `NaN`, which is not `>= 0`. -/
theorem net_is_negative_or_nan :
    parseFloatOrZero "10" = fin 10 ∧ toNumber "24" = fin 24 ∧
      parseFloatOrZero "200" = fin 200 ∧
      (handleCalcSubmit idFormat ⟨"10", "24", "normal", "200"⟩
        (.ok { pricePerGram := fin 1000000 }) freshPage).1 =
        .returned (.estimate
          { weight := fin 10, karat := fin 24, condition := "normal", feeInput := fin 200,
            pricePerGram := fin 1000000, gross := fin 10000000, net := fin (-10000000) }) ∧
      (fin 0).le (fin (-10000000)) = false ∧
      (handleCalcSubmit idFormat ⟨"Infinity", "24", "normal", "0"⟩ .networkError freshPage).1 =
        .returned (.estimate
          { weight := posInf, karat := fin 24, condition := "normal", feeInput := fin 0,
            pricePerGram := fin 0, gross := nan, net := nan }) ∧
      (fin 0).le nan = false := by
  have hc : conditionFactor "normal" = fin 1 := by
    have hne : ¬ ("normal" = "rusak") := by decide
    simp [conditionFactor, hne]
  refine ⟨parseFloatOrZero_10, toNumber_24, parseFloatOrZero_200, ?_, by simp [le], ?_, rfl⟩
  · have hres := handleCalcSubmit_values idFormat ⟨"10", "24", "normal", "200"⟩
      (.ok { pricePerGram := fin 1000000 }) freshPage (fin 10) (fin 24) (fin 200)
      (fin 1000000) parseFloatOrZero_10 toNumber_24 parseFloatOrZero_200 (orZero_fin _)
      (by simp [gt, lt])
    have hfee : feeFactor (fin 200) = fin (-1) := by
      rw [feeFactor_of_gt _ (by simp [gt, lt]), div_200_100, sub_1_2]
    rw [hres, hc, hfee, mul_10_1000000, div_24_24, mul_10000000_1, mul_10000000_1,
      mul_10000000_neg1]
  · have hres := handleCalcSubmit_values idFormat ⟨"Infinity", "24", "normal", "0"⟩
      .networkError freshPage posInf (fin 24) (fin 0) (fin 0) parseFloatOrZero_Infinity
      toNumber_24 parseFloatOrZero_0 rfl rfl
    have hgross : (posInf.mul (fin 0)).mul ((fin 24).div (fin 24)) = nan := by
      simp [JSNum.mul]
    rw [hres, hgross]
    rfl

/-- C10, amended: for an accepted weight (`> 0`), a karat `> 0`, a fee `<= 100` (so in
particular `0 <= fee <= 100`; a fee `<= 0` is ignored) and a price that is `0` (failed read)
or a fetched value `>= 0`, neither the gross nor the net amount computed by
`handleCalcSubmit` is negative: each is `NaN` or `>= 0`; and whenever the gross amount is a
finite number it is `>= 0` and the net amount is a finite number `>= 0`. -/
theorem amounts_never_negative (fmt : JSNum → String) (form : CalcForm) (o : FetchOutcome)
    (pg : Page) (hw : (parseFloatOrZero form.weight).gt (fin 0) = true)
    (hk : (toNumber form.karat).gt (fin 0) = true)
    (hfee : (parseFloatOrZero form.fee).le (fin 100) = true)
    (ho : o.failed = true ∨
      ∃ r : PriceRecord, o = .ok r ∧ (fin 0).le r.pricePerGram = true) :
    ∃ e : Estimate,
      (handleCalcSubmit fmt form o pg).1 = .returned (.estimate e) ∧
      (e.gross = nan ∨ (fin 0).le e.gross = true) ∧
      (e.net = nan ∨ (fin 0).le e.net = true) ∧
      (∀ g : ℚ, e.gross = fin g → 0 ≤ g ∧ ∃ n : ℚ, e.net = fin n ∧ 0 ≤ n) := by
  have hp : (fin 0).le ((o.record.getD { pricePerGram := fin 0 }).pricePerGram.orZero) = true := by
    apply orZero_nonneg
    rcases ho with ho | ⟨r, rfl, hr⟩
    · rw [record_of_failed _ ho]; simp [le]
    · simpa [FetchOutcome.record] using hr
  have hwle : (fin 0).le (parseFloatOrZero form.weight) = true := by
    rcases (gt_zero_iff _).mp hw with h | ⟨q, h, hq⟩
    · rw [h]; rfl
    · rw [h]; simpa [le] using le_of_lt hq
  obtain ⟨cf, hcf, hcf0, hcf1⟩ := conditionFactor_bounds form.condition
  obtain ⟨ff, hff, hff0, hff1⟩ := feeFactor_bounds _ hfee
  have hres := handleCalcSubmit_values fmt form o pg _ _ _ _ rfl rfl rfl rfl hw
  have hgross := mul_nonneg_or_nan _ _
    (mul_nonneg_or_nan _ _ (Or.inr hwle) (Or.inr hp)) (Or.inr (div_24_nonneg _ hk))
  have hcfle : (fin 0).le (conditionFactor form.condition) = true := by
    rw [hcf]; simpa [le] using hcf0
  have hffle : (fin 0).le (feeFactor (parseFloatOrZero form.fee)) = true := by
    rw [hff]; simpa [le] using hff0
  have hnet := mul_nonneg_or_nan _ _ (mul_nonneg_or_nan _ _ hgross (Or.inr hcfle))
    (Or.inr hffle)
  refine ⟨_, hres, hgross, hnet, ?_⟩
  intro g hg
  have hg' : ((parseFloatOrZero form.weight).mul
      ((o.record.getD { pricePerGram := fin 0 }).pricePerGram.orZero)).mul
        ((toNumber form.karat).div (fin 24)) = fin g := hg
  have hg0 : 0 ≤ g := by
    rcases hgross with h | h
    · rw [hg'] at h; exact JSNum.noConfusion h
    · rw [hg'] at h; simpa [le] using h
  obtain ⟨x, y, -, -, hxy⟩ := mul_eq_fin hg'
  obtain ⟨r1, hr1, hr10, hr1g⟩ := binary64_le_of_le hxy (x := g * cf)
    (mul_nonneg hg0 hcf0) (by nlinarith)
  obtain ⟨n, hn, hn0, -⟩ := binary64_le_of_le hr1 (x := r1 * ff)
    (mul_nonneg hr10 hff0) (by nlinarith)
  refine ⟨hg0, n, ?_, hn0⟩
  show ((((parseFloatOrZero form.weight).mul
      ((o.record.getD { pricePerGram := fin 0 }).pricePerGram.orZero)).mul
        ((toNumber form.karat).div (fin 24))).mul (conditionFactor form.condition)).mul
          (feeFactor (parseFloatOrZero form.fee)) = fin n
  rw [hg', hcf, hff, mul_fin, hr1, mul_fin, hn]

/-- C10 amended, at weight 10, karat 18, fee 5 and price 1000000. -/
theorem amounts_never_negative_witness :
    ∃ e : Estimate,
      (handleCalcSubmit idFormat ⟨"10", "18", "rusak", "5"⟩
        (.ok { pricePerGram := fin 1000000 }) freshPage).1 = .returned (.estimate e) ∧
      (e.gross = nan ∨ (fin 0).le e.gross = true) ∧
      (e.net = nan ∨ (fin 0).le e.net = true) ∧
      (∀ g : ℚ, e.gross = fin g → 0 ≤ g ∧ ∃ n : ℚ, e.net = fin n ∧ 0 ≤ n) :=
  amounts_never_negative idFormat ⟨"10", "18", "rusak", "5"⟩
    (.ok { pricePerGram := fin 1000000 }) freshPage
    (by show (parseFloatOrZero "10").gt (fin 0) = true; rw [parseFloatOrZero_10]; simp [gt, lt])
    (by show (toNumber "18").gt (fin 0) = true; rw [toNumber_18]; simp [gt, lt])
    (by show (parseFloatOrZero "5").le (fin 100) = true; rw [parseFloatOrZero_5]; norm_num [le])
    (Or.inr ⟨_, rfl, by simp [le]⟩)

end SolusiEmas
